import Mathlib

/-!
Verification development for a chunk-streamed voxel world core
(block storage, terrain generation, face-culled meshing, collision and
raycast queries, serialization).

JavaScript numbers that matter to the verified behavior are exact here:
they are modelled by the fraction type `Q` below (a quotient-free pair of
integers with positive denominator), and all voxel data is integer-typed.
Stateful objects are modelled by explicit state passing; the ambient
`Math.random()` source is modelled as an explicit stream of fractions
consumed left to right; the possibly unbounded chunk-generation recursion
is modelled with a fuel parameter, `none` meaning the fuel ran out.
-/

namespace VoxelCore

/-- Exact fractions with a positive denominator, used to model the
JavaScript floating-point values of the source exactly (all constants in
play are small decimals).  Operations do not reduce the fraction; order,
floor and ceiling agree with the rational value (see the bridge lemmas). -/
structure Q where
  num : Int
  den : Int
  den_pos : 0 < den

def Q.ofInt (n : Int) : Q := ⟨n, 1, Int.one_pos⟩

def Q.add (a b : Q) : Q := ⟨a.num * b.den + b.num * a.den, a.den * b.den, mul_pos a.den_pos b.den_pos⟩

def Q.mul (a b : Q) : Q := ⟨a.num * b.num, a.den * b.den, mul_pos a.den_pos b.den_pos⟩

def Q.neg (a : Q) : Q := ⟨-a.num, a.den, a.den_pos⟩

def Q.sub (a b : Q) : Q := a.add b.neg

def Q.lt (a b : Q) : Prop := a.num * b.den < b.num * a.den

def Q.le (a b : Q) : Prop := a.num * b.den ≤ b.num * a.den

instance : Add Q := ⟨Q.add⟩

instance : Mul Q := ⟨Q.mul⟩

instance : Neg Q := ⟨Q.neg⟩

instance : Sub Q := ⟨Q.sub⟩

instance : LT Q := ⟨Q.lt⟩

instance : LE Q := ⟨Q.le⟩

instance (a b : Q) : Decidable (a < b) :=
  inferInstanceAs (Decidable (a.num * b.den < b.num * a.den))

instance (a b : Q) : Decidable (a ≤ b) :=
  inferInstanceAs (Decidable (a.num * b.den ≤ b.num * a.den))

/-- `Math.floor` on an exact fraction (floor division of numerator by
denominator). -/
def Q.floor (a : Q) : Int := a.num.fdiv a.den

/-- `Math.ceil` on an exact fraction. -/
def Q.ceil (a : Q) : Int := -((-a.num).fdiv a.den)

def Q.pow (a : Q) (n : Nat) : Q := ⟨a.num ^ n, a.den ^ n, pow_pos a.den_pos n⟩

/-- The rational value of a fraction, used only in proofs. -/
def Q.toRat (a : Q) : ℚ := (a.num : ℚ) / (a.den : ℚ)

/-! ## config.js -/

def CHUNK_SIZE : Int := 16

def CHUNK_HEIGHT : Int := 64

/-- BlockType tags from config.js. -/
def AIR : Nat := 0

def GRASS : Nat := 1

def DIRT : Nat := 2

def STONE : Nat := 3

def WOOD : Nat := 4

def LEAVES : Nat := 5

/-- Static per-tag properties (config.js `BlockProperties`). -/
structure BlockProps where
  name : String
  solid : Bool
  transparent : Bool
  color : Nat
  topColor : Option Nat
  bottomColor : Option Nat

def BlockProperties (t : Nat) : BlockProps :=
  if t = GRASS then ⟨"Grass", true, false, 0x6B8E23, some 0x7EC850, some 0x8B7355⟩
  else if t = DIRT then ⟨"Dirt", true, false, 0x8B7355, none, none⟩
  else if t = STONE then ⟨"Stone", true, false, 0x808080, none, none⟩
  else if t = WOOD then ⟨"Wood", true, false, 0x8B4513, none, none⟩
  else if t = LEAVES then ⟨"Leaves", true, false, 0x228B22, none, none⟩
  else ⟨"Air", false, true, 0x000000, none, none⟩

/-- TERRAIN_PARAMS.scale = 0.05 -/
def terrainScale : Q := ⟨1, 20, by omega⟩

/-- TERRAIN_PARAMS.octaves = 4 -/
def terrainOctaves : Nat := 4

/-- TERRAIN_PARAMS.persistence = 0.5 -/
def terrainPersistence : Q := ⟨1, 2, by omega⟩

/-- TERRAIN_PARAMS.lacunarity = 2.0 -/
def terrainLacunarity : Q := ⟨2, 1, by omega⟩

/-- TERRAIN_PARAMS.heightMultiplier = 20 -/
def heightMultiplier : Q := Q.ofInt 20

/-- TERRAIN_PARAMS.baseHeight = 20 -/
def baseHeight : Q := Q.ofInt 20

/-- TERRAIN_PARAMS.treeChance = 0.01 -/
def treeChance : Q := ⟨1, 100, by omega⟩

/-- PLAYER_CONFIG.radius = 0.4 -/
def playerRadius : Q := ⟨2, 5, by omega⟩

/-- PLAYER_CONFIG.height = 1.8 -/
def playerHeight : Q := ⟨9, 5, by omega⟩

/-- PLAYER_CONFIG.reach = 5 -/
def playerReach : Q := Q.ofInt 5

/-! ## Mesh descriptors (the output side of Chunk.generateMesh) -/

/-- The three parallel buffers built by `Chunk.generateMesh`, plus the
running `vertexCount`.  Vertex positions are exact integers in this code
(block corners at integer world coordinates); colors are the r,g,b
channels of `THREE.Color(hex)`. -/
structure MeshData where
  vertices : List Int
  colors : List Q
  indices : List Nat
  vertexCount : Nat

/-- THREE.Color red channel of a hex color. -/
def colorR (hex : Nat) : Q := ⟨(hex / 65536) % 256, 255, by omega⟩

/-- THREE.Color green channel of a hex color. -/
def colorG (hex : Nat) : Q := ⟨(hex / 256) % 256, 255, by omega⟩

/-- THREE.Color blue channel of a hex color. -/
def colorB (hex : Nat) : Q := ⟨hex % 256, 255, by omega⟩

/-! ## Chunk.js -/

/-- Chunk state: coordinate pair, dense block array (the `Uint8Array` of
length CHUNK_SIZE*CHUNK_HEIGHT*CHUNK_SIZE, modelled as a function from the
flat index to the stored byte; all reads the code performs are bounds
checked first), current mesh, dirty flag. -/
structure Chunk where
  chunkX : Int
  chunkZ : Int
  blocks : Int → Nat
  mesh : Option MeshData
  dirty : Bool

/-- `new Chunk(chunkX, chunkZ, world)`: zero-filled (all Air) blocks,
no mesh, dirty. -/
def Chunk.init (cx cz : Int) : Chunk := ⟨cx, cz, fun _ => 0, none, true⟩

/-- Chunk.getBlockIndex. -/
def Chunk.getBlockIndex (x y z : Int) : Int :=
  x + z * CHUNK_SIZE + y * CHUNK_SIZE * CHUNK_SIZE

/-- Chunk.getBlock: Air for out-of-range local coordinates, otherwise the
stored tag. -/
def Chunk.getBlock (c : Chunk) (x y z : Int) : Nat :=
  if x < 0 ∨ x ≥ CHUNK_SIZE ∨ y < 0 ∨ y ≥ CHUNK_HEIGHT ∨ z < 0 ∨ z ≥ CHUNK_SIZE then AIR
  else c.blocks (Chunk.getBlockIndex x y z)

/-- Chunk.setBlock: no-op when out of range, otherwise store the tag
(`Uint8Array` stores take the value mod 256) and set the dirty flag. -/
def Chunk.setBlock (c : Chunk) (x y z : Int) (blockType : Nat) : Chunk :=
  if x < 0 ∨ x ≥ CHUNK_SIZE ∨ y < 0 ∨ y ≥ CHUNK_HEIGHT ∨ z < 0 ∨ z ≥ CHUNK_SIZE then c
  else { c with
          blocks := fun i => if i = Chunk.getBlockIndex x y z then blockType % 256 else c.blocks i,
          dirty := true }

/-! ## World.js state (the chunk Map) -/

/-- The world's `Map` from chunk coordinates to chunks, modelled as an
association list in insertion order (the JS string key `cx,cz` is in
bijection with the coordinate pair). -/
abbrev ChunkMap := List ((Int × Int) × Chunk)

/-- `Map.get`. -/
def mapGet (m : ChunkMap) (key : Int × Int) : Option Chunk :=
  match m with
  | [] => none
  | (k, c) :: rest => if k = key then some c else mapGet rest key

/-- `Map.set`: update in place if the key is present, else append. -/
def mapSet (m : ChunkMap) (key : Int × Int) (c : Chunk) : ChunkMap :=
  match m with
  | [] => [(key, c)]
  | (k, c') :: rest => if k = key then (k, c) :: rest else (k, c') :: mapSet rest key c

/-- World state: generation seed and the chunk map.  The `NoiseGenerator`
instance carries no state beyond the seed it was constructed with, so it
is represented by the seed itself. -/
structure World where
  seed : Int
  chunks : ChunkMap

/-- World.getChunk. -/
def World.getChunk (w : World) (cx cz : Int) : Option Chunk :=
  mapGet w.chunks (cx, cz)

/-- In-place mutation of the chunk object stored at a key (JS aliasing:
chunks obtained from the map are mutated through the shared reference). -/
def World.modifyChunk (w : World) (cx cz : Int) (f : Chunk → Chunk) : World :=
  match mapGet w.chunks (cx, cz) with
  | none => w
  | some c => { w with chunks := mapSet w.chunks (cx, cz) (f c) }

/-- World.getBlock at world coordinates: Air for out-of-range y or a
non-resident chunk, otherwise the chunk-local read. -/
def World.getBlock (w : World) (x y z : Int) : Nat :=
  if y < 0 ∨ y ≥ CHUNK_HEIGHT then AIR
  else
    let chunkX := Int.fdiv x CHUNK_SIZE
    let chunkZ := Int.fdiv z CHUNK_SIZE
    match w.getChunk chunkX chunkZ with
    | none => AIR
    | some chunk => chunk.getBlock (x - chunkX * CHUNK_SIZE) y (z - chunkZ * CHUNK_SIZE)

/-- Marks the chunk at a coordinate dirty when it is resident
(the `if (adjacentChunk) adjacentChunk.dirty = true` pattern). -/
def World.markDirty (w : World) (cx cz : Int) : World :=
  w.modifyChunk cx cz (fun c => { c with dirty := true })

/-! ## World generation (NoiseGenerator is modelled from the spec) -/

/-- Modelled from the spec: the repository's `src/utils/NoiseGenerator.js`
is not among the provided sources.  The spec requires a deterministic 2D
value-noise primitive seeded by the world seed; this model hashes the seed
with the (unreduced) numerators of the scaled input coordinates into a
fraction in [0, 1). -/
def valueNoise2D (seed : Int) (x y : Q) : Q :=
  ⟨((seed + x.num * 374761393 + y.num * 668265263).natAbs % 1000 : Nat), 1000, by omega⟩

/-- Modelled from the spec: `NoiseGenerator.octaveNoise2D`, a fractal sum
of `octaves` layers of `valueNoise2D`, layer i at frequency
`lacunarity^i` and weight `persistence^i`. -/
def octaveNoise2D (seed : Int) (x y : Q) (octaves : Nat) (persistence lacunarity : Q) : Q :=
  (List.range octaves).foldl
    (fun acc i =>
      acc + (Q.pow persistence i) * valueNoise2D seed (x * Q.pow lacunarity i) (y * Q.pow lacunarity i))
    (Q.ofInt 0)

/-- The integer column height computed by World.generateChunkTerrain:
`Math.max(0, Math.floor(baseHeight + noiseValue * heightMultiplier))`
with the noise sampled at `(worldX * scale, worldZ * scale)`. -/
def columnHeight (seed worldX worldZ : Int) : Int :=
  max 0 (Q.floor (baseHeight +
    octaveNoise2D seed (Q.ofInt worldX * terrainScale) (Q.ofInt worldZ * terrainScale)
      terrainOctaves terrainPersistence terrainLacunarity * heightMultiplier))

/-- The per-cell tag chosen by the column fill loop of
World.generateChunkTerrain for a cell below the height: Grass at the top,
Dirt for the next cells down to height-4, Stone below. -/
def terrainBlockFor (height y : Int) : Nat :=
  if y = height - 1 then GRASS
  else if y ≥ height - 4 then DIRT
  else STONE

/-- The column fill loop (`for y = 0; y < height && y < CHUNK_HEIGHT`),
applied to the chunk object under generation. -/
def fillColumn (c : Chunk) (x z height : Int) : Chunk :=
  (List.range (min height CHUNK_HEIGHT).toNat).foldl
    (fun c' y => c'.setBlock x ((y : Nat) : Int) z (terrainBlockFor height ((y : Nat) : Int))) c

/-- The `Math.random()` source: a stream of fraction values consumed left
to right; the current position in the stream is threaded through the
generation functions. -/
def Rng := Nat → Q

/-- The x,z column order of the generation loops of
World.generateChunkTerrain (x outer, z inner). -/
def chunkColumns : List (Int × Int) :=
  (List.range 16).flatMap fun x => (List.range 16).map fun z => (((x : Nat) : Int), ((z : Nat) : Int))

/-- The dy,dx,dz leaf offset order of the loops of World.generateTree
(dy outer, then dx, then dz). -/
def leafOffsets : List (Int × Int × Int) :=
  (List.range 4).flatMap fun dy =>
    ([-2, -1, 0, 1, 2] : List Int).flatMap fun dx =>
      ([-2, -1, 0, 1, 2] : List Int).map fun dz => (((dy : Nat) : Int), dx, dz)

/-- The leaf distance test of World.generateTree:
`Math.sqrt(dx*dx + dz*dz + dy*dy*0.5) < 2.5`, stated on squares (both
sides are nonnegative, so the test is equivalent). -/
def leafClose (dy dx dz : Int) : Prop :=
  Q.ofInt (dx * dx + dz * dz) + Q.ofInt (dy * dy) * ⟨1, 2, by omega⟩ < ⟨25, 4, by omega⟩

instance (dy dx dz : Int) : Decidable (leafClose dy dx dz) := by
  unfold leafClose; infer_instance

/-- The mutually recursive world-mutation entry points of World.js
(`setBlock`, `getOrCreateChunk`, `generateChunkTerrain` with its column
loop, `generateTree` with its trunk and leaf loops).  They recurse through
each other when a write lands in a non-resident chunk, so they are
interpreted by the single fuel-indexed function `runGen` below; each
constructor is one entry point. -/
inductive GenOp
  | setBlock (x y z : Int) (blockType : Nat)
  | getOrCreateChunk (cx cz : Int)
  | generateChunkTerrain (cx cz : Int)
  | genColumns (cx cz : Int) (cols : List (Int × Int))
  | generateTree (x y z : Int)
  | treeTrunk (x y z : Int) (is : List Int)
  | treeLeaves (x leafStart z : Int) (offs : List (Int × Int × Int))

/-- One step of the World.js mutation semantics; every call consumes one
unit of fuel and `none` means the fuel ran out (the JS recursion depth is
unbounded in principle).  The Bool result is the return value of
World.setBlock; the other entry points return `true`.

- `setBlock x y z t`: reject out-of-range y with `false`; else get or
  create the owning chunk, write the local cell through it, mark each
  resident border neighbor dirty, return `true`.
- `getOrCreateChunk`: return the resident chunk, or insert a fresh chunk
  into the map (visible to reads/writes while generating) and generate.
- `generateChunkTerrain`: the x,z double loop over the chunk's columns.
- `genColumns`: per column, compute the noise height, run the fill loop on
  the chunk object, then — only when `height < CHUNK_HEIGHT - 6` — consume
  one `Math.random()` value and plant a tree at the surface when it is
  below treeChance.
- `generateTree`: a Wood trunk of height `4 + Math.floor(Math.random()*2)`
  then the leaf cluster.
- `treeTrunk`: Wood at y+i for each i below the trunk height.
- `treeLeaves`: skip the trunk's own column for dy < 3, place Leaves at
  offsets within the distance threshold. -/
def runGen : Nat → World → Rng → Nat → GenOp → Option (World × Nat × Bool)
  | 0, _, _, _, _ => none
  | fuel + 1, w, rng, k, op =>
    match op with
    | GenOp.setBlock x y z blockType =>
      if y < 0 ∨ y ≥ CHUNK_HEIGHT then some (w, k, false)
      else
        let chunkX := Int.fdiv x CHUNK_SIZE
        let chunkZ := Int.fdiv z CHUNK_SIZE
        match runGen fuel w rng k (GenOp.getOrCreateChunk chunkX chunkZ) with
        | none => none
        | some (w1, k1, _) =>
          let localX := x - chunkX * CHUNK_SIZE
          let localZ := z - chunkZ * CHUNK_SIZE
          let w2 := w1.modifyChunk chunkX chunkZ (fun c => c.setBlock localX y localZ blockType)
          let w3 := if localX = 0 then w2.markDirty (chunkX - 1) chunkZ else w2
          let w4 := if localX = CHUNK_SIZE - 1 then w3.markDirty (chunkX + 1) chunkZ else w3
          let w5 := if localZ = 0 then w4.markDirty chunkX (chunkZ - 1) else w4
          let w6 := if localZ = CHUNK_SIZE - 1 then w5.markDirty chunkX (chunkZ + 1) else w5
          some (w6, k1, true)
    | GenOp.getOrCreateChunk cx cz =>
      match mapGet w.chunks (cx, cz) with
      | some _ => some (w, k, true)
      | none =>
        runGen fuel { w with chunks := mapSet w.chunks (cx, cz) (Chunk.init cx cz) } rng k
          (GenOp.generateChunkTerrain cx cz)
    | GenOp.generateChunkTerrain cx cz =>
      runGen fuel w rng k (GenOp.genColumns cx cz chunkColumns)
    | GenOp.genColumns cx cz cols =>
      match cols with
      | [] => some (w, k, true)
      | (x, z) :: rest =>
        let worldX := cx * CHUNK_SIZE + x
        let worldZ := cz * CHUNK_SIZE + z
        let height := columnHeight w.seed worldX worldZ
        let w1 := w.modifyChunk cx cz (fun c => fillColumn c x z height)
        if height < CHUNK_HEIGHT - 6 then
          if rng k < treeChance then
            match runGen fuel w1 rng (k + 1) (GenOp.generateTree worldX height worldZ) with
            | none => none
            | some (w2, k2, _) => runGen fuel w2 rng k2 (GenOp.genColumns cx cz rest)
          else runGen fuel w1 rng (k + 1) (GenOp.genColumns cx cz rest)
        else runGen fuel w1 rng k (GenOp.genColumns cx cz rest)
    | GenOp.generateTree x y z =>
      let trunkHeight : Int := 4 + Q.floor (rng k * Q.ofInt 2)
      match runGen fuel w rng (k + 1)
          (GenOp.treeTrunk x y z ((List.range trunkHeight.toNat).map fun i => ((i : Nat) : Int))) with
      | none => none
      | some (w1, k1, _) =>
        runGen fuel w1 rng k1 (GenOp.treeLeaves x (y + trunkHeight - 1) z leafOffsets)
    | GenOp.treeTrunk x y z is =>
      match is with
      | [] => some (w, k, true)
      | i :: rest =>
        match runGen fuel w rng k (GenOp.setBlock x (y + i) z WOOD) with
        | none => none
        | some (w1, k1, _) => runGen fuel w1 rng k1 (GenOp.treeTrunk x y z rest)
    | GenOp.treeLeaves x leafStart z offs =>
      match offs with
      | [] => some (w, k, true)
      | (dy, dx, dz) :: rest =>
        if dx = 0 ∧ dz = 0 ∧ dy < 3 then
          runGen fuel w rng k (GenOp.treeLeaves x leafStart z rest)
        else if leafClose dy dx dz then
          match runGen fuel w rng k (GenOp.setBlock (x + dx) (leafStart + dy) (z + dz) LEAVES) with
          | none => none
          | some (w1, k1, _) => runGen fuel w1 rng k1 (GenOp.treeLeaves x leafStart z rest)
        else runGen fuel w rng k (GenOp.treeLeaves x leafStart z rest)

/-- World.setBlock at world coordinates (fuel-indexed). -/
def World.setBlockF (fuel : Nat) (w : World) (rng : Rng) (k : Nat) (x y z : Int)
    (blockType : Nat) : Option (World × Nat × Bool) :=
  runGen fuel w rng k (GenOp.setBlock x y z blockType)

/-- World.getOrCreateChunk (fuel-indexed). -/
def World.getOrCreateChunkF (fuel : Nat) (w : World) (rng : Rng) (k : Nat) (cx cz : Int) :
    Option (World × Nat) :=
  (runGen fuel w rng k (GenOp.getOrCreateChunk cx cz)).map fun r => (r.1, r.2.1)

/-- World.generateChunkTerrain (fuel-indexed). -/
def World.generateChunkTerrainF (fuel : Nat) (w : World) (rng : Rng) (k : Nat) (cx cz : Int) :
    Option (World × Nat) :=
  (runGen fuel w rng k (GenOp.generateChunkTerrain cx cz)).map fun r => (r.1, r.2.1)

/-! ## Chunk.generateMesh (Chunk.js) -/

/-- Chunk.shouldRenderFace: the neighbor in direction (dx,dy,dz) is
resolved locally when its x,z are inside the chunk, otherwise through the
world at world coordinates; the face renders when that neighbor is Air. -/
def Chunk.shouldRenderFace (w : World) (c : Chunk) (x y z dx dy dz : Int) : Bool :=
  let nx := x + dx
  let ny := y + dy
  let nz := z + dz
  if nx < 0 ∨ nx ≥ CHUNK_SIZE ∨ nz < 0 ∨ nz ≥ CHUNK_SIZE then
    decide (w.getBlock (c.chunkX * CHUNK_SIZE + nx) ny (c.chunkZ * CHUNK_SIZE + nz) = AIR)
  else
    decide (c.getBlock nx ny nz = AIR)

/-- Which of the block's colors a face uses: the top face uses
`topColor || color`, the bottom face `bottomColor || color`, the four side
faces `color`. -/
inductive FaceColorSel
  | top
  | bottom
  | side

/-- One entry of the per-block `faces` table of Chunk.generateMesh:
direction, the four vertex corner offsets in push order, color choice. -/
structure FaceSpec where
  dir : Int × Int × Int
  verts : List (Int × Int × Int)
  sel : FaceColorSel

/-- The `faces` table of Chunk.generateMesh, in source order:
Top, Bottom, Front, Back, Right, Left. -/
def meshFaces : List FaceSpec :=
  [ ⟨(0, 1, 0), [(0,1,0), (1,1,0), (1,1,1), (0,1,1)], FaceColorSel.top⟩,
    ⟨(0, -1, 0), [(0,0,1), (1,0,1), (1,0,0), (0,0,0)], FaceColorSel.bottom⟩,
    ⟨(0, 0, 1), [(0,0,1), (0,1,1), (1,1,1), (1,0,1)], FaceColorSel.side⟩,
    ⟨(0, 0, -1), [(1,0,0), (1,1,0), (0,1,0), (0,0,0)], FaceColorSel.side⟩,
    ⟨(1, 0, 0), [(1,0,1), (1,1,1), (1,1,0), (1,0,0)], FaceColorSel.side⟩,
    ⟨(-1, 0, 0), [(0,0,0), (0,1,0), (0,1,1), (0,0,1)], FaceColorSel.side⟩ ]

/-- The hex color a face of a block uses. -/
def faceHex (props : BlockProps) (sel : FaceColorSel) : Nat :=
  match sel with
  | FaceColorSel.top => props.topColor.getD props.color
  | FaceColorSel.bottom => props.bottomColor.getD props.color
  | FaceColorSel.side => props.color

/-- Emitting one face: push 4 vertices (world-space corner positions) and
their colors, then the 6 indices of the face's two triangles. -/
def emitFace (props : BlockProps) (worldX y worldZ : Int) (f : FaceSpec) (m : MeshData) :
    MeshData :=
  let hex := faceHex props f.sel
  { vertices := m.vertices ++ (f.verts.flatMap fun v => [worldX + v.1, y + v.2.1, worldZ + v.2.2]),
    colors := m.colors ++ (f.verts.flatMap fun _ => [colorR hex, colorG hex, colorB hex]),
    indices := m.indices ++
      [m.vertexCount, m.vertexCount + 1, m.vertexCount + 2,
       m.vertexCount, m.vertexCount + 2, m.vertexCount + 3],
    vertexCount := m.vertexCount + 4 }

/-- The per-block body of the mesh loop: skip Air, otherwise try all 6
faces, emitting those whose neighbor is Air. -/
def emitBlock (w : World) (c : Chunk) (m : MeshData) (cell : Int × Int × Int) : MeshData :=
  let x := cell.1
  let y := cell.2.1
  let z := cell.2.2
  let blockType := c.getBlock x y z
  if blockType = AIR then m
  else
    let props := BlockProperties blockType
    let worldX := c.chunkX * CHUNK_SIZE + x
    let worldZ := c.chunkZ * CHUNK_SIZE + z
    meshFaces.foldl
      (fun acc f =>
        if Chunk.shouldRenderFace w c x y z f.dir.1 f.dir.2.1 f.dir.2.2 then
          emitFace props worldX y worldZ f acc
        else acc)
      m

/-- The y,z,x iteration order of the mesh loops of Chunk.generateMesh
(y outer, then z, then x), flattened into one cell list; used to state
counting facts about the mesh. -/
def meshCells : List (Int × Int × Int) :=
  (List.range 64).flatMap fun y =>
    (List.range 16).flatMap fun z =>
      (List.range 16).map fun x => (((x : Nat) : Int), ((y : Nat) : Int), ((z : Nat) : Int))

/-- The pure geometry computation of Chunk.generateMesh: the three parallel
buffers accumulated by the nested y,z,x block loops. -/
def generateMeshData (w : World) (c : Chunk) : MeshData :=
  (List.range 64).foldl
    (fun my y =>
      (List.range 16).foldl
        (fun mz z =>
          (List.range 16).foldl
            (fun mx x => emitBlock w c mx (((x : Nat) : Int), ((y : Nat) : Int), ((z : Nat) : Int))) mz)
        my)
    ⟨[], [], [], 0⟩

/-- Chunk.generateMesh: a no-op unless the chunk is dirty; otherwise build
the buffers; with no geometry just clear the dirty flag (the superseded
mesh object is renderer-side state), else install the new mesh and clear
the dirty flag. -/
def Chunk.generateMesh (w : World) (c : Chunk) : Chunk :=
  if c.dirty = false then c
  else
    let md := generateMeshData w c
    if md.vertices = [] then { c with dirty := false }
    else { c with mesh := some md, dirty := false }

/-- The number of (non-air block, Air-neighbor face) pairs of one cell:
how many faces the mesh loop emits for it. -/
def faceCountAt (w : World) (c : Chunk) (x y z : Int) : Nat :=
  if c.getBlock x y z = AIR then 0
  else (meshFaces.filter fun f => Chunk.shouldRenderFace w c x y z f.dir.1 f.dir.2.1 f.dir.2.2).length

/-- Total number of faces the mesh loop emits for a chunk. -/
def exposedFaces (w : World) (c : Chunk) : Nat :=
  (meshCells.map fun cell => faceCountAt w c cell.1 cell.2.1 cell.2.2).sum

/-! ## Serialization (Chunk.serialize/deserialize, World.serialize/deserialize) -/

/-- The chunk persistence payload: coordinates plus the flat block array
(`Array.from(this.blocks)`). -/
structure ChunkData where
  chunkX : Int
  chunkZ : Int
  blocks : List Nat

/-- The flat copy of the block array, in index order. -/
def Chunk.blocksList (c : Chunk) : List Nat :=
  (List.range (CHUNK_SIZE * CHUNK_HEIGHT * CHUNK_SIZE).toNat).map fun i => c.blocks ((i : Nat) : Int)

/-- Chunk.serialize. -/
def Chunk.serializeC (c : Chunk) : ChunkData :=
  ⟨c.chunkX, c.chunkZ, c.blocksList⟩

/-- Chunk.deserialize: replace the block array wholesale
(`new Uint8Array(data.blocks)`; every read the code performs is bounds
checked against the fixed chunk extent) and mark the chunk dirty. -/
def Chunk.deserializeC (c : Chunk) (d : ChunkData) : Chunk :=
  { c with blocks := fun i => if 0 ≤ i then d.blocks.getD i.toNat 0 else 0, dirty := true }

/-- The world persistence payload: seed plus one entry per resident chunk
in map order. -/
structure WorldData where
  seed : Int
  chunks : List ChunkData

/-- World.serialize. -/
def World.serializeW (w : World) : WorldData :=
  ⟨w.seed, w.chunks.map fun e => e.2.serializeC⟩

/-- World.deserialize: adopt the saved seed (re-seeding the noise
generator), drop all resident chunks, then reconstruct and register each
persisted chunk (`new Chunk` + `chunk.deserialize`, so each arrives
dirty). -/
def World.deserializeW (_w : World) (d : WorldData) : World :=
  { seed := d.seed,
    chunks := d.chunks.foldl
      (fun m cd => mapSet m (cd.chunkX, cd.chunkZ) ((Chunk.init cd.chunkX cd.chunkZ).deserializeC cd))
      [] }

/-! ## Player raycast and collision (Player.js) -/

/-- The fixed raycast step, 0.1. -/
def rayStep : Q := ⟨1, 10, by omega⟩

/-- The number of distances 0, 0.1, ..., 4.9 sampled by the raycast loop
(`for distance = 0; distance < reach; distance += step` with reach 5). -/
def raySteps : Nat := 50

/-- The result shape of Player.raycast. -/
structure RayHit where
  hit : Bool
  position : Option (Int × Int × Int)
  placePosition : Option (Int × Int × Int)
deriving DecidableEq

/-- The voxel sampled at step k: the floored coordinates of
`origin + direction * (k * step)`. -/
def raySample (ox oy oz dx dy dz : Q) (k : Nat) : Int × Int × Int :=
  let dist := Q.ofInt ((k : Nat) : Int) * rayStep
  ((ox + dx * dist).floor, (oy + dy * dist).floor, (oz + dz * dist).floor)

/-- The raycast march from step k on: return at the first non-air sample,
remembering the most recent air sample as the placement anchor. -/
def raycastFrom (w : World) (ox oy oz dx dy dz : Q) (lastAir : Option (Int × Int × Int)) :
    Nat → Nat → RayHit
  | _, 0 => ⟨false, none, none⟩
  | k, steps + 1 =>
    let cell := raySample ox oy oz dx dy dz k
    if w.getBlock cell.1 cell.2.1 cell.2.2 ≠ AIR then ⟨true, some cell, lastAir⟩
    else raycastFrom w ox oy oz dx dy dz (some cell) (k + 1) steps

/-- Player.raycast from a view origin along a view direction. -/
def raycast (w : World) (ox oy oz dx dy dz : Q) : RayHit :=
  raycastFrom w ox oy oz dx dy dz none 0 raySteps

/-- The block tag the raycast loop reads at step k. -/
def raySampleBlock (w : World) (ox oy oz dx dy dz : Q) (k : Nat) : Nat :=
  let cell := raySample ox oy oz dx dy dz k
  w.getBlock cell.1 cell.2.1 cell.2.2

/-- The inclusive integer range [a, b] enumerated by the collision loops. -/
def intRangeIncl (a b : Int) : List Int :=
  (List.range (b - a + 1).toNat).map fun i => a + ((i : Nat) : Int)

/-- Player.checkCollision: place the player's axis-aligned box at
`position + offset`, compute the inclusive floor/ceil cell bounds on each
axis, and report a collision when any enumerated cell is non-air. -/
def checkCollision (w : World) (px py pz ox oy oz : Q) : Bool :=
  let tx := px + ox
  let ty := py + oy
  let tz := pz + oz
  let minX := (tx - playerRadius).floor
  let maxX := (tx + playerRadius).ceil
  let minY := ty.floor
  let maxY := (ty + playerHeight).ceil
  let minZ := (tz - playerRadius).floor
  let maxZ := (tz + playerRadius).ceil
  (intRangeIncl minX maxX).any fun x =>
    (intRangeIncl minY maxY).any fun y =>
      (intRangeIncl minZ maxZ).any fun z =>
        decide (w.getBlock x y z ≠ AIR)

/-! ## Analysis devices and concrete test fixtures -/

/-- The world after the tree-free part of the column loop: each column
filled by `fillColumn` at its noise height, through the chunk map. -/
def fillRun (w : World) (cx cz : Int) (cols : List (Int × Int)) : World :=
  cols.foldl
    (fun wa p =>
      wa.modifyChunk cx cz
        (fun c => fillColumn c p.1 p.2 (columnHeight wa.seed (cx * CHUNK_SIZE + p.1) (cz * CHUNK_SIZE + p.2))))
    w

/-- The chunk object after the tree-free part of the column loop: the
fold of `fillColumn` over the listed columns, each at its noise height —
the chunk-level image of `fillRun` when the chunk is resident. -/
def fillChunk (seed cx cz : Int) (c : Chunk) (cols : List (Int × Int)) : Chunk :=
  cols.foldl
    (fun ca p =>
      fillColumn ca p.1 p.2 (columnHeight seed (cx * CHUNK_SIZE + p.1) (cz * CHUNK_SIZE + p.2)))
    c

/-- The world state World.setBlock produces when the owning chunk is
already resident (no generation runs): the local write through the map
followed by the four border dirty-markings, exactly as in the source. -/
def World.setBlockResident (w : World) (x y z : Int) (t : Nat) : World :=
  let chunkX := Int.fdiv x CHUNK_SIZE
  let chunkZ := Int.fdiv z CHUNK_SIZE
  let localX := x - chunkX * CHUNK_SIZE
  let localZ := z - chunkZ * CHUNK_SIZE
  let w2 := w.modifyChunk chunkX chunkZ (fun c => c.setBlock localX y localZ t)
  let w3 := if localX = 0 then w2.markDirty (chunkX - 1) chunkZ else w2
  let w4 := if localX = CHUNK_SIZE - 1 then w3.markDirty (chunkX + 1) chunkZ else w3
  let w5 := if localZ = 0 then w4.markDirty chunkX (chunkZ - 1) else w4
  if localZ = CHUNK_SIZE - 1 then w5.markDirty chunkX (chunkZ + 1) else w5

/-- The fraction 1/2. -/
def qHalf : Q := ⟨1, 2, by omega⟩

/-- The fraction 0. -/
def qZero : Q := Q.ofInt 0

/-- A Math.random() history that never falls below treeChance: no column
ever plants a tree. -/
def rngNoTree : Rng := fun _ => qHalf

/-- A Math.random() history whose first value is 0 (below treeChance) and
whose later values are 1/2: exactly the first tree-eligible column plants
a tree, with trunk height 4 + floor(1/2 * 2) = 5. -/
def rngTreeFirst : Rng := fun j => if j = 0 then qZero else qHalf

/-- A world of seed 0 holding one freshly created chunk at (0,0), as at
the start of that chunk's terrain generation. -/
def wFresh : World := ⟨0, [((0, 0), Chunk.init 0 0)]⟩

/-- A chunk whose only non-air cell is Stone at local (8,30,8). -/
def cIso : Chunk := (Chunk.init 0 0).setBlock 8 30 8 STONE

/-- The world holding only `cIso`. -/
def wIso : World := ⟨0, [((0, 0), cIso)]⟩

/-- A chunk with Stone at local (8,30,8) and at its six face neighbors. -/
def cEnc : Chunk :=
  [((8 : Int), (30 : Int), (8 : Int)), (7, 30, 8), (9, 30, 8), (8, 29, 8), (8, 31, 8),
      (8, 30, 7), (8, 30, 9)].foldl
    (fun c p => c.setBlock p.1 p.2.1 p.2.2 STONE) (Chunk.init 0 0)

/-- The world holding only `cEnc`. -/
def wEnc : World := ⟨0, [((0, 0), cEnc)]⟩

/-- A chunk as after a mesh rebuild: resident with a clean dirty flag. -/
def cleanChunk (cx cz : Int) : Chunk := { Chunk.init cx cz with dirty := false }

/-- A world where chunks (0,0) and (1,0) are resident with clean dirty
flags. -/
def wTwo : World := ⟨0, [((0, 0), cleanChunk 0 0), ((1, 0), cleanChunk 1 0)]⟩

/-- A world of seed 0 where the three chunks west/south/southwest of chunk
(0,0) are resident with clean dirty flags and chunk (0,0) is absent. -/
def wNeighbors : World :=
  ⟨0, [((-1, 0), cleanChunk (-1) 0), ((0, -1), cleanChunk 0 (-1)), ((-1, -1), cleanChunk (-1) (-1))]⟩

/-- A world whose only non-air cell is Stone at (3,0,0). -/
def wRay : World := ⟨0, [((0, 0), (Chunk.init 0 0).setBlock 3 0 0 STONE)]⟩

/-- The empty world: no resident chunk anywhere. -/
def wEmpty : World := ⟨0, []⟩

/-- The solid shell cells around the axis-aligned box of a player standing
at (8.5, 30, 8.5): the box cells are x,z in [8,9], y in [30,32]; the shell
is the six face-adjacent slabs x=7, x=10, y=29, y=33, z=7, z=10. -/
def shellCells : List (Int × Int × Int) :=
  ((intRangeIncl 30 32).flatMap fun y => (intRangeIncl 8 9).flatMap fun z =>
      [((7 : Int), y, z), (10, y, z)]) ++
    ((intRangeIncl 8 9).flatMap fun x => (intRangeIncl 8 9).flatMap fun z =>
      [(x, (29 : Int), z), (x, 33, z)]) ++
    ((intRangeIncl 8 9).flatMap fun x => (intRangeIncl 30 32).flatMap fun y =>
      [(x, y, (7 : Int)), (x, y, 10)])

/-- The chunk carrying the solid shell. -/
def cShell : Chunk :=
  shellCells.foldl (fun c p => c.setBlock p.1 p.2.1 p.2.2 STONE) (Chunk.init 0 0)

/-- The world holding only the shell chunk: a body box at (8.5, 30, 8.5)
is fully enclosed on all 6 sides by solid cells, with Air inside. -/
def wShell : World := ⟨0, [((0, 0), cShell)]⟩

/-- The position 8.5 used with `wShell`. -/
def qMid : Q := ⟨17, 2, by omega⟩

/-- The displacement 1/20 = 0.05, small enough to stay inside the shell's
air pocket. -/
def qTiny : Q := ⟨1, 20, by omega⟩

/-! # Theorems

First the bridge between the computable fraction type and ℚ, then helper
lemmas about the data model, then one theorem per claim (with witnesses
and counterexamples). -/

theorem Q.den_ne (a : Q) : ((a.den : ℚ)) ≠ 0 := by
  exact_mod_cast Int.ne_of_gt a.den_pos

theorem Q.toRat_ofInt (n : Int) : (Q.ofInt n).toRat = (n : ℚ) := by
  simp [Q.toRat, Q.ofInt]

theorem Q.toRat_add (a b : Q) : (a + b).toRat = a.toRat + b.toRat := by
  show (Q.add a b).toRat = _
  unfold Q.toRat Q.add
  have ha := a.den_ne
  have hb := b.den_ne
  push_cast
  field_simp

theorem Q.toRat_mul (a b : Q) : (a * b).toRat = a.toRat * b.toRat := by
  show (Q.mul a b).toRat = _
  unfold Q.toRat Q.mul
  have ha := a.den_ne
  have hb := b.den_ne
  push_cast
  rw [div_mul_div_comm]

theorem Q.toRat_neg (a : Q) : (Q.neg a).toRat = -a.toRat := by
  unfold Q.toRat Q.neg
  push_cast
  ring

theorem Q.toRat_sub (a b : Q) : (a - b).toRat = a.toRat - b.toRat := by
  show (Q.sub a b).toRat = _
  unfold Q.sub
  rw [show Q.add a b.neg = a + b.neg from rfl, Q.toRat_add, Q.toRat_neg]
  ring

theorem Q.lt_iff (a b : Q) : a < b ↔ a.toRat < b.toRat := by
  show Q.lt a b ↔ _
  unfold Q.lt Q.toRat
  rw [div_lt_div_iff₀ (by exact_mod_cast a.den_pos) (by exact_mod_cast b.den_pos)]
  constructor
  · intro h; exact_mod_cast h
  · intro h; exact_mod_cast h

theorem Q.le_iff (a b : Q) : a ≤ b ↔ a.toRat ≤ b.toRat := by
  show Q.le a b ↔ _
  unfold Q.le Q.toRat
  rw [div_le_div_iff₀ (by exact_mod_cast a.den_pos) (by exact_mod_cast b.den_pos)]
  constructor
  · intro h; exact_mod_cast h
  · intro h; exact_mod_cast h

theorem Q.floor_eq (a : Q) : a.floor = ⌊a.toRat⌋ := by
  unfold Q.floor Q.toRat
  have hd : a.den = (a.den.toNat : Int) := (Int.toNat_of_nonneg (le_of_lt a.den_pos)).symm
  rw [hd, Int.fdiv_eq_ediv _ (by positivity)]
  rw [show ((a.den.toNat : Int) : ℚ) = (a.den.toNat : ℚ) by push_cast; ring]
  exact (Rat.floor_intCast_div_natCast a.num a.den.toNat).symm

theorem Q.ceil_eq (a : Q) : a.ceil = ⌈a.toRat⌉ := by
  unfold Q.ceil
  have : (Q.neg a).floor = ⌊(Q.neg a).toRat⌋ := Q.floor_eq _
  unfold Q.floor at this
  rw [show (Q.neg a).num = -a.num from rfl, show (Q.neg a).den = a.den from rfl] at this
  rw [this, Q.toRat_neg, Int.floor_neg, neg_neg]

theorem Q.toRat_pow (a : Q) (n : Nat) : (Q.pow a n).toRat = a.toRat ^ n := by
  unfold Q.pow Q.toRat
  push_cast
  rw [div_pow]

/-! ## Helper lemmas: ranges and the chunk map -/

theorem mem_intRangeIncl (a lo hi : Int) : a ∈ intRangeIncl lo hi ↔ lo ≤ a ∧ a ≤ hi := by
  unfold intRangeIncl
  simp only [List.mem_map, List.mem_range]
  constructor
  · rintro ⟨i, hi', rfl⟩
    omega
  · rintro ⟨h1, h2⟩
    exact ⟨(a - lo).toNat, by omega, by omega⟩

theorem mapGet_mapSet_self (m : ChunkMap) (key : Int × Int) (c : Chunk) :
    mapGet (mapSet m key c) key = some c := by
  induction m with
  | nil => simp [mapGet, mapSet]
  | cons e rest ih =>
    rcases e with ⟨ek, ec⟩
    by_cases h : ek = key
    · simp [mapSet, mapGet, h]
    · simp [mapSet, mapGet, h, ih]

theorem mapGet_mapSet_other (m : ChunkMap) (key key' : Int × Int) (c : Chunk)
    (h : key' ≠ key) : mapGet (mapSet m key c) key' = mapGet m key' := by
  have h' : key ≠ key' := fun hh => h hh.symm
  induction m with
  | nil => simp [mapGet, mapSet, h']
  | cons e rest ih =>
    rcases e with ⟨ek, ec⟩
    by_cases he : ek = key
    · subst he
      simp [mapSet, mapGet, h']
    · by_cases he' : ek = key'
      · simp [mapSet, mapGet, he, he', h]
      · simp [mapSet, mapGet, he, he', ih]

theorem mapGet_mapSet_isSome (m : ChunkMap) (key key' : Int × Int) (c : Chunk)
    (h : (mapGet m key').isSome = true) : (mapGet (mapSet m key c) key').isSome = true := by
  by_cases hk : key' = key
  · subst hk; simp [mapGet_mapSet_self]
  · rwa [mapGet_mapSet_other _ _ _ _ hk]

theorem modifyChunk_seed (w : World) (cx cz : Int) (f : Chunk → Chunk) :
    (w.modifyChunk cx cz f).seed = w.seed := by
  unfold World.modifyChunk
  cases mapGet w.chunks (cx, cz) <;> rfl

theorem modifyChunk_get_self (w : World) (cx cz : Int) (f : Chunk → Chunk) (c : Chunk)
    (h : mapGet w.chunks (cx, cz) = some c) :
    mapGet (w.modifyChunk cx cz f).chunks (cx, cz) = some (f c) := by
  unfold World.modifyChunk
  rw [h]
  exact mapGet_mapSet_self _ _ _

theorem modifyChunk_get_other (w : World) (cx cz : Int) (f : Chunk → Chunk)
    (key : Int × Int) (h : key ≠ (cx, cz)) :
    mapGet (w.modifyChunk cx cz f).chunks key = mapGet w.chunks key := by
  unfold World.modifyChunk
  cases hg : mapGet w.chunks (cx, cz) with
  | none => rfl
  | some c => exact mapGet_mapSet_other _ _ _ _ h

theorem modifyChunk_absent (w : World) (cx cz : Int) (f : Chunk → Chunk)
    (h : mapGet w.chunks (cx, cz) = none) : w.modifyChunk cx cz f = w := by
  unfold World.modifyChunk
  rw [h]

theorem modifyChunk_isSome (w : World) (cx cz : Int) (f : Chunk → Chunk) (key : Int × Int)
    (h : (mapGet w.chunks key).isSome = true) :
    (mapGet (w.modifyChunk cx cz f).chunks key).isSome = true := by
  unfold World.modifyChunk
  cases hg : mapGet w.chunks (cx, cz) with
  | none => exact h
  | some c => exact mapGet_mapSet_isSome _ _ _ _ h

theorem markDirty_seed (w : World) (cx cz : Int) : (w.markDirty cx cz).seed = w.seed :=
  modifyChunk_seed _ _ _ _

theorem markDirty_get_other (w : World) (cx cz : Int) (key : Int × Int) (h : key ≠ (cx, cz)) :
    mapGet (w.markDirty cx cz).chunks key = mapGet w.chunks key :=
  modifyChunk_get_other _ _ _ _ _ h

theorem markDirty_isSome (w : World) (cx cz : Int) (key : Int × Int)
    (h : (mapGet w.chunks key).isSome = true) :
    (mapGet (w.markDirty cx cz).chunks key).isSome = true :=
  modifyChunk_isSome _ _ _ _ _ h

/-! ## Helper lemmas: Chunk reads and writes -/

theorem getBlockIndex_inj (x y z x' y' z' : Int)
    (hx : 0 ≤ x) (hx2 : x < 16) (hy : 0 ≤ y) (hy2 : y < 64) (hz : 0 ≤ z) (hz2 : z < 16)
    (hx' : 0 ≤ x') (hx2' : x' < 16) (hy' : 0 ≤ y') (hy2' : y' < 64) (hz' : 0 ≤ z') (hz2' : z' < 16)
    (h : Chunk.getBlockIndex x y z = Chunk.getBlockIndex x' y' z') :
    x = x' ∧ y = y' ∧ z = z' := by
  unfold Chunk.getBlockIndex CHUNK_SIZE at h
  omega

theorem getBlock_setBlock_self (c : Chunk) (x y z : Int) (t : Nat)
    (hx : 0 ≤ x) (hx2 : x < 16) (hy : 0 ≤ y) (hy2 : y < 64) (hz : 0 ≤ z) (hz2 : z < 16) :
    (c.setBlock x y z t).getBlock x y z = t % 256 := by
  unfold Chunk.setBlock Chunk.getBlock CHUNK_SIZE CHUNK_HEIGHT
  have hcond : ¬(x < 0 ∨ x ≥ (16 : Int) ∨ y < 0 ∨ y ≥ (64 : Int) ∨ z < 0 ∨ z ≥ (16 : Int)) := by
    omega
  simp [hcond]

theorem getBlock_setBlock_other (c : Chunk) (x y z x' y' z' : Int) (t : Nat)
    (h : ¬(x' = x ∧ y' = y ∧ z' = z)) :
    (c.setBlock x y z t).getBlock x' y' z' = c.getBlock x' y' z' := by
  unfold Chunk.setBlock
  by_cases hw : x < 0 ∨ x ≥ CHUNK_SIZE ∨ y < 0 ∨ y ≥ CHUNK_HEIGHT ∨ z < 0 ∨ z ≥ CHUNK_SIZE
  · simp [hw]
  · simp only [hw, if_false]
    unfold Chunk.getBlock
    by_cases hr : x' < 0 ∨ x' ≥ CHUNK_SIZE ∨ y' < 0 ∨ y' ≥ CHUNK_HEIGHT ∨ z' < 0 ∨ z' ≥ CHUNK_SIZE
    · simp [hr]
    · simp only [hr, if_false]
      unfold CHUNK_SIZE CHUNK_HEIGHT at hw hr
      have hne : Chunk.getBlockIndex x' y' z' ≠ Chunk.getBlockIndex x y z := by
        intro he
        rcases getBlockIndex_inj x' y' z' x y z (by omega) (by omega) (by omega) (by omega)
          (by omega) (by omega) (by omega) (by omega) (by omega) (by omega) (by omega) (by omega)
          he with ⟨e1, e2, e3⟩
        exact h ⟨e1, e2, e3⟩
      simp [hne]

theorem setBlock_fields (c : Chunk) (x y z : Int) (t : Nat) :
    (c.setBlock x y z t).chunkX = c.chunkX ∧ (c.setBlock x y z t).chunkZ = c.chunkZ ∧
      (c.setBlock x y z t).mesh = c.mesh := by
  unfold Chunk.setBlock
  by_cases hw : x < 0 ∨ x ≥ CHUNK_SIZE ∨ y < 0 ∨ y ≥ CHUNK_HEIGHT ∨ z < 0 ∨ z ≥ CHUNK_SIZE
  · simp [hw]
  · simp [hw]

theorem init_getBlock (cx cz x y z : Int) : (Chunk.init cx cz).getBlock x y z = AIR := by
  unfold Chunk.getBlock Chunk.init AIR
  by_cases hr : x < 0 ∨ x ≥ CHUNK_SIZE ∨ y < 0 ∨ y ≥ CHUNK_HEIGHT ∨ z < 0 ∨ z ≥ CHUNK_SIZE
  · simp [hr]
  · simp [hr]

/-! ## Chunk presence is monotone along generation -/

theorem markDirty_ite_isSome (cond : Prop) [Decidable cond] (w : World) (a b : Int)
    (key : Int × Int) (h : (mapGet w.chunks key).isSome = true) :
    (mapGet (if cond then w.markDirty a b else w).chunks key).isSome = true := by
  split
  · exact markDirty_isSome _ _ _ _ h
  · exact h

/-- Presence of a chunk in the map survives every World.js mutation entry
point: chunks are only ever added or updated during writes and
generation, never removed. -/
theorem runGen_isSome_mono :
    ∀ (fuel : Nat) (w : World) (rng : Rng) (k : Nat) (op : GenOp) (r : World × Nat × Bool),
      runGen fuel w rng k op = some r →
      ∀ key, (mapGet w.chunks key).isSome = true → (mapGet r.1.chunks key).isSome = true := by
  intro fuel
  induction fuel with
  | zero =>
    intro w rng k op r h
    simp [runGen] at h
  | succ fuel ih =>
    intro w rng k op r h key hkey
    cases op with
    | setBlock x y z t =>
      simp only [runGen] at h
      by_cases hy : y < 0 ∨ y ≥ CHUNK_HEIGHT
      · rw [if_pos hy] at h
        cases h
        exact hkey
      · rw [if_neg hy] at h
        cases heq : runGen fuel w rng k
            (GenOp.getOrCreateChunk (x.fdiv CHUNK_SIZE) (z.fdiv CHUNK_SIZE)) with
        | none => rw [heq] at h; cases h
        | some r1 =>
          rw [heq] at h
          rcases r1 with ⟨w1, k1, b1⟩
          cases h
          have p1 := ih w rng k _ _ heq key hkey
          exact markDirty_ite_isSome _ _ _ _ _ (markDirty_ite_isSome _ _ _ _ _
            (markDirty_ite_isSome _ _ _ _ _ (markDirty_ite_isSome _ _ _ _ _
              (modifyChunk_isSome _ _ _ _ _ p1))))
    | getOrCreateChunk cx cz =>
      simp only [runGen] at h
      cases hres : mapGet w.chunks (cx, cz) with
      | some c =>
        rw [hres] at h
        cases h
        exact hkey
      | none =>
        rw [hres] at h
        exact ih _ rng k _ _ h key (mapGet_mapSet_isSome _ _ _ _ hkey)
    | generateChunkTerrain cx cz =>
      simp only [runGen] at h
      exact ih _ rng k _ _ h key hkey
    | genColumns cx cz cols =>
      simp only [runGen] at h
      cases cols with
      | nil =>
        cases h
        exact hkey
      | cons p rest =>
        rcases p with ⟨x, z⟩
        simp only at h
        have hw1 : (mapGet (w.modifyChunk cx cz fun c =>
            fillColumn c x z
              (columnHeight w.seed (cx * CHUNK_SIZE + x) (cz * CHUNK_SIZE + z))).chunks
          key).isSome = true := modifyChunk_isSome _ _ _ _ _ hkey
        by_cases hh : columnHeight w.seed (cx * CHUNK_SIZE + x) (cz * CHUNK_SIZE + z) <
            CHUNK_HEIGHT - 6
        · rw [if_pos hh] at h
          by_cases ht : rng k < treeChance
          · rw [if_pos ht] at h
            cases heq2 : runGen fuel
                (w.modifyChunk cx cz fun c =>
                  fillColumn c x z
                    (columnHeight w.seed (cx * CHUNK_SIZE + x) (cz * CHUNK_SIZE + z)))
                rng (k + 1)
                (GenOp.generateTree (cx * CHUNK_SIZE + x)
                  (columnHeight w.seed (cx * CHUNK_SIZE + x) (cz * CHUNK_SIZE + z))
                  (cz * CHUNK_SIZE + z)) with
            | none => rw [heq2] at h; cases h
            | some r2 =>
              rw [heq2] at h
              rcases r2 with ⟨w2, k2, b2⟩
              have p2 := ih _ rng _ _ _ heq2 key hw1
              exact ih _ rng _ _ _ h key p2
          · rw [if_neg ht] at h
            exact ih _ rng _ _ _ h key hw1
        · rw [if_neg hh] at h
          exact ih _ rng _ _ _ h key hw1
    | generateTree x y z =>
      simp only [runGen] at h
      cases heq : runGen fuel w rng (k + 1)
          (GenOp.treeTrunk x y z
            ((List.range (4 + Q.floor (rng k * Q.ofInt 2)).toNat).map fun i => ((i : Nat) : Int))) with
      | none => rw [heq] at h; cases h
      | some r1 =>
        rw [heq] at h
        rcases r1 with ⟨w1, k1, b1⟩
        have p1 := ih _ rng _ _ _ heq key hkey
        exact ih _ rng _ _ _ h key p1
    | treeTrunk x y z is =>
      simp only [runGen] at h
      cases is with
      | nil =>
        cases h
        exact hkey
      | cons i rest =>
        simp only at h
        cases heq : runGen fuel w rng k (GenOp.setBlock x (y + i) z WOOD) with
        | none => rw [heq] at h; cases h
        | some r1 =>
          rw [heq] at h
          rcases r1 with ⟨w1, k1, b1⟩
          have p1 := ih _ rng _ _ _ heq key hkey
          exact ih _ rng _ _ _ h key p1
    | treeLeaves x leafStart z offs =>
      simp only [runGen] at h
      cases offs with
      | nil =>
        cases h
        exact hkey
      | cons d rest =>
        rcases d with ⟨dy, dx, dz⟩
        simp only at h
        by_cases hskip : dx = 0 ∧ dz = 0 ∧ dy < 3
        · rw [if_pos hskip] at h
          exact ih _ rng _ _ _ h key hkey
        · rw [if_neg hskip] at h
          by_cases hcl : leafClose dy dx dz
          · rw [if_pos hcl] at h
            cases heq : runGen fuel w rng k
                (GenOp.setBlock (x + dx) (leafStart + dy) (z + dz) LEAVES) with
            | none => rw [heq] at h; cases h
            | some r1 =>
              rw [heq] at h
              rcases r1 with ⟨w1, k1, b1⟩
              have p1 := ih _ rng _ _ _ heq key hkey
              exact ih _ rng _ _ _ h key p1
          · rw [if_neg hcl] at h
            exact ih _ rng _ _ _ h key hkey

/-- A successful getOrCreateChunk leaves the requested chunk resident. -/
theorem runGen_getOrCreate_present (fuel : Nat) (w : World) (rng : Rng) (k : Nat)
    (cx cz : Int) (r : World × Nat × Bool)
    (h : runGen fuel w rng k (GenOp.getOrCreateChunk cx cz) = some r) :
    (mapGet r.1.chunks (cx, cz)).isSome = true := by
  cases fuel with
  | zero => simp [runGen] at h
  | succ fuel =>
    simp only [runGen] at h
    split at h
    · rename_i c heq
      cases h
      simp [heq]
    · exact runGen_isSome_mono _ _ rng k _ _ h (cx, cz)
        (by rw [mapGet_mapSet_self]; rfl)

/-! ## Claim C4 -/

theorem markDirty_get_self (w : World) (cx cz : Int) (c : Chunk)
    (h : mapGet w.chunks (cx, cz) = some c) :
    mapGet (w.markDirty cx cz).chunks (cx, cz) = some { c with dirty := true } :=
  modifyChunk_get_self _ _ _ _ _ h

theorem markDirty_ite_get_other (cond : Prop) [Decidable cond] (w : World) (a b : Int)
    (key : Int × Int) (h : key ≠ (a, b)) :
    mapGet (if cond then w.markDirty a b else w).chunks key = mapGet w.chunks key := by
  split
  · exact markDirty_get_other _ _ _ _ h
  · rfl

theorem markDirty_none (w : World) (a b : Int) (key : Int × Int)
    (h : mapGet w.chunks key = none) : mapGet (w.markDirty a b).chunks key = none := by
  by_cases hk : key = (a, b)
  · subst hk
    unfold World.markDirty World.modifyChunk
    rw [h]
    exact h
  · rw [markDirty_get_other _ _ _ _ hk]
    exact h

theorem markDirty_ite_none (cond : Prop) [Decidable cond] (w : World) (a b : Int)
    (key : Int × Int) (h : mapGet w.chunks key = none) :
    mapGet (if cond then w.markDirty a b else w).chunks key = none := by
  split
  · exact markDirty_none _ _ _ _ h
  · exact h

/-- When the owning chunk is resident, World.setBlock runs no generation:
it returns `true` without consuming randomness and produces exactly the
resident-write world. -/
theorem setBlockF_resident (fuel : Nat) (w : World) (rng : Rng) (k : Nat) (x y z : Int)
    (t : Nat) (c : Chunk) (hy1 : 0 ≤ y) (hy2 : y < CHUNK_HEIGHT)
    (hres : mapGet w.chunks (Int.fdiv x CHUNK_SIZE, Int.fdiv z CHUNK_SIZE) = some c) :
    World.setBlockF (fuel + 2) w rng k x y z t = some (w.setBlockResident x y z t, k, true) := by
  unfold World.setBlockF
  simp only [runGen]
  rw [if_neg (by omega), hres]
  rfl

/-- C4 (amended: the owning chunk is resident, so the write triggers no
terrain generation): a world-level setBlock with in-range y returns true
and produces the resident-write world, in which a write at local x = 0
(resp. x = SIZE-1, z = 0, z = SIZE-1) leaves the corresponding resident
neighbor chunk dirty; a write at an interior local coordinate changes no
chunk other than the owner; and neighbors that were not resident are
never created.  (Without the residency hypothesis the claim fails: see
the counterexample, where generation of the owning chunk plants a tree
whose blocks dirty and even create neighbors.) -/
theorem C4_border_writes_mark_resident_neighbors (fuel : Nat) (w : World) (rng : Rng)
    (k : Nat) (x y z : Int) (t : Nat) (c : Chunk) (hy1 : 0 ≤ y) (hy2 : y < CHUNK_HEIGHT)
    (hres : mapGet w.chunks (Int.fdiv x CHUNK_SIZE, Int.fdiv z CHUNK_SIZE) = some c) :
    World.setBlockF (fuel + 2) w rng k x y z t = some (w.setBlockResident x y z t, k, true) ∧
      (x - Int.fdiv x CHUNK_SIZE * CHUNK_SIZE = 0 →
        ∀ d, mapGet w.chunks (Int.fdiv x CHUNK_SIZE - 1, Int.fdiv z CHUNK_SIZE) = some d →
          mapGet (w.setBlockResident x y z t).chunks
              (Int.fdiv x CHUNK_SIZE - 1, Int.fdiv z CHUNK_SIZE) =
            some { d with dirty := true }) ∧
      (x - Int.fdiv x CHUNK_SIZE * CHUNK_SIZE = CHUNK_SIZE - 1 →
        ∀ d, mapGet w.chunks (Int.fdiv x CHUNK_SIZE + 1, Int.fdiv z CHUNK_SIZE) = some d →
          mapGet (w.setBlockResident x y z t).chunks
              (Int.fdiv x CHUNK_SIZE + 1, Int.fdiv z CHUNK_SIZE) =
            some { d with dirty := true }) ∧
      (z - Int.fdiv z CHUNK_SIZE * CHUNK_SIZE = 0 →
        ∀ d, mapGet w.chunks (Int.fdiv x CHUNK_SIZE, Int.fdiv z CHUNK_SIZE - 1) = some d →
          mapGet (w.setBlockResident x y z t).chunks
              (Int.fdiv x CHUNK_SIZE, Int.fdiv z CHUNK_SIZE - 1) =
            some { d with dirty := true }) ∧
      (z - Int.fdiv z CHUNK_SIZE * CHUNK_SIZE = CHUNK_SIZE - 1 →
        ∀ d, mapGet w.chunks (Int.fdiv x CHUNK_SIZE, Int.fdiv z CHUNK_SIZE + 1) = some d →
          mapGet (w.setBlockResident x y z t).chunks
              (Int.fdiv x CHUNK_SIZE, Int.fdiv z CHUNK_SIZE + 1) =
            some { d with dirty := true }) ∧
      ((x - Int.fdiv x CHUNK_SIZE * CHUNK_SIZE ≠ 0 ∧
          x - Int.fdiv x CHUNK_SIZE * CHUNK_SIZE ≠ CHUNK_SIZE - 1 ∧
          z - Int.fdiv z CHUNK_SIZE * CHUNK_SIZE ≠ 0 ∧
          z - Int.fdiv z CHUNK_SIZE * CHUNK_SIZE ≠ CHUNK_SIZE - 1) →
        ∀ key, key ≠ (Int.fdiv x CHUNK_SIZE, Int.fdiv z CHUNK_SIZE) →
          mapGet (w.setBlockResident x y z t).chunks key = mapGet w.chunks key) ∧
      (∀ key, mapGet w.chunks key = none →
        mapGet (w.setBlockResident x y z t).chunks key = none) := by
  refine ⟨setBlockF_resident fuel w rng k x y z t c hy1 hy2 hres, ?_, ?_, ?_, ?_, ?_, ?_⟩
  · intro hlx d hd
    unfold World.setBlockResident
    rw [markDirty_ite_get_other _ _ _ _ _ (by unfold CHUNK_SIZE; intro hh; injection hh; omega)]
    rw [markDirty_ite_get_other _ _ _ _ _ (by unfold CHUNK_SIZE; intro hh; injection hh; omega)]
    rw [if_neg (by unfold CHUNK_SIZE at *; omega), if_pos hlx]
    refine markDirty_get_self _ _ _ _ ?_
    rw [modifyChunk_get_other _ _ _ _ _ (by intro hh; injection hh; omega)]
    exact hd
  · intro hlx d hd
    unfold World.setBlockResident
    rw [markDirty_ite_get_other _ _ _ _ _ (by unfold CHUNK_SIZE; intro hh; injection hh; omega)]
    rw [markDirty_ite_get_other _ _ _ _ _ (by unfold CHUNK_SIZE; intro hh; injection hh; omega)]
    rw [if_pos hlx, if_neg (by unfold CHUNK_SIZE at *; omega)]
    refine markDirty_get_self _ _ _ _ ?_
    rw [modifyChunk_get_other _ _ _ _ _ (by intro hh; injection hh; omega)]
    exact hd
  · intro hlz d hd
    unfold World.setBlockResident
    rw [markDirty_ite_get_other _ _ _ _ _ (by unfold CHUNK_SIZE; intro hh; injection hh; omega)]
    rw [if_pos hlz]
    refine markDirty_get_self _ _ _ _ ?_
    rw [markDirty_ite_get_other _ _ _ _ _ (by intro hh; injection hh; omega)]
    rw [markDirty_ite_get_other _ _ _ _ _ (by intro hh; injection hh; omega)]
    rw [modifyChunk_get_other _ _ _ _ _ (by intro hh; injection hh; omega)]
    exact hd
  · intro hlz d hd
    unfold World.setBlockResident
    rw [if_pos hlz]
    refine markDirty_get_self _ _ _ _ ?_
    rw [markDirty_ite_get_other _ _ _ _ _ (by unfold CHUNK_SIZE at *; intro hh; injection hh; omega)]
    rw [markDirty_ite_get_other _ _ _ _ _ (by intro hh; injection hh; omega)]
    rw [markDirty_ite_get_other _ _ _ _ _ (by intro hh; injection hh; omega)]
    rw [modifyChunk_get_other _ _ _ _ _ (by intro hh; injection hh; omega)]
    exact hd
  · rintro ⟨h1, h2, h3, h4⟩ key hkey
    unfold World.setBlockResident
    rw [if_neg h4, if_neg h3, if_neg h2, if_neg h1]
    exact modifyChunk_get_other _ _ _ _ _ hkey
  · intro key hnone
    unfold World.setBlockResident
    refine markDirty_ite_none _ _ _ _ _ (markDirty_ite_none _ _ _ _ _
      (markDirty_ite_none _ _ _ _ _ (markDirty_ite_none _ _ _ _ _ ?_)))
    by_cases hk : key = (Int.fdiv x CHUNK_SIZE, Int.fdiv z CHUNK_SIZE)
    · rw [hk, hres] at hnone
      cases hnone
    · rw [modifyChunk_get_other _ _ _ _ _ hk]
      exact hnone

/-- C4 witness: in a world where chunks (0,0) and (1,0) are resident and
clean, a write at (15,5,3) — local x = SIZE-1 of chunk (0,0) — returns
true and leaves neighbor (1,0) dirty. -/
theorem C4_border_writes_mark_resident_neighbors_witness :
    World.setBlockF 2 wTwo rngNoTree 0 15 5 3 STONE =
        some (wTwo.setBlockResident 15 5 3 STONE, 0, true) ∧
      mapGet (wTwo.setBlockResident 15 5 3 STONE).chunks (1, 0) =
        some { cleanChunk 1 0 with dirty := true } := by
  have h := C4_border_writes_mark_resident_neighbors 0 wTwo rngNoTree 0 15 5 3 STONE
    (cleanChunk 0 0) (by omega) (by decide) rfl
  refine ⟨h.1, ?_⟩
  have hb := h.2.2.1 (by decide) (cleanChunk 1 0) rfl
  have hfx : Int.fdiv 15 CHUNK_SIZE = 0 := by decide
  have hfz : Int.fdiv 3 CHUNK_SIZE = 0 := by decide
  rw [hfx, hfz] at hb
  exact hb

set_option maxRecDepth 40000 in
/-- C4 counterexample: the claim as stated (for every world-level setBlock)
fails when the owning chunk is not resident.  In `wNeighbors` (seed 0,
chunks (-1,0), (0,-1), (-1,-1) resident and clean, chunk (0,0) absent), a
write at world (8,30,8) — an interior local coordinate of chunk (0,0) —
triggers generation of chunk (0,0); under a random history whose first
value is 0 that generation plants a tree at border column (0,0), whose
trunk write at local x = 0 marks resident neighbor (-1,0) dirty.  So an
interior in-range write with `true` result left a neighbor chunk dirty,
contradicting the claim's "a write at an interior local coordinate marks
no neighbor chunk dirty". -/
theorem C4_interior_write_can_dirty_neighbor_counterexample :
    (8 - Int.fdiv 8 CHUNK_SIZE * CHUNK_SIZE ≠ 0 ∧
        8 - Int.fdiv 8 CHUNK_SIZE * CHUNK_SIZE ≠ CHUNK_SIZE - 1) ∧
      (mapGet wNeighbors.chunks (-1, 0)).map Chunk.dirty = some false ∧
      (World.setBlockF 500 wNeighbors rngTreeFirst 0 8 30 8 STONE).map
          (fun r => ((mapGet r.1.chunks (-1, 0)).map Chunk.dirty, r.2.2)) =
        some (some true, true) := by
  decide

/-! ## Claim C1 -/

/-- C1 (code-bug evidence): terrain generation is NOT a pure function of
the seed and column coordinates, because tree placement consults the
global unseeded `Math.random()`.  Generating the single column (5,5) of
chunk (0,0) twice with seed 0 — once under a random history whose first
value is 0, once under one whose values are 1/2 — produces different
column contents: the cell at the surface (local y = columnHeight = 32)
holds a Wood trunk block in the first run and Air in the second.  The
claim (and the spec's determinism requirement) say the two runs must be
identical. -/
theorem C1_tree_placement_follows_global_rng :
    columnHeight 0 5 5 = 32 ∧
      (runGen 500 wFresh rngTreeFirst 0 (GenOp.genColumns 0 0 [(5, 5)])).map
          (fun r => r.1.getBlock 5 32 5) = some WOOD ∧
      (runGen 500 wFresh rngNoTree 0 (GenOp.genColumns 0 0 [(5, 5)])).map
          (fun r => r.1.getBlock 5 32 5) = some AIR := by
  decide

/-! ## Claim C5 -/

/-- The raycast march from step k: if the first non-air sample at or after
k within the remaining steps is step jm, the march reports a hit at the
jm-th sampled cell, anchored at the previously sampled cell (or at the
incoming lastAir when jm is the very first step examined). -/
theorem raycastFrom_hit (w : World) (ox oy oz dx dy dz : Q) :
    ∀ (steps k : Nat) (lastAir : Option (Int × Int × Int)) (jm : Nat),
      k ≤ jm → jm < k + steps →
      (∀ i, k ≤ i → i < jm → raySampleBlock w ox oy oz dx dy dz i = AIR) →
      raySampleBlock w ox oy oz dx dy dz jm ≠ AIR →
      raycastFrom w ox oy oz dx dy dz lastAir k steps =
        ⟨true, some (raySample ox oy oz dx dy dz jm),
          if jm = k then lastAir else some (raySample ox oy oz dx dy dz (jm - 1))⟩ := by
  intro steps
  induction steps with
  | zero =>
    intro k lastAir jm hk1 hk2 _ _
    omega
  | succ steps ih =>
    intro k lastAir jm hk1 hk2 hair hhit
    by_cases hjm : jm = k
    · subst hjm
      simp only [raycastFrom]
      rw [if_pos (by exact hhit)]
      simp
    · have hklt : k < jm := by omega
      simp only [raycastFrom]
      rw [if_neg (fun hcond => hcond (hair k le_rfl hklt))]
      rw [ih (k + 1) (some (raySample ox oy oz dx dy dz k)) jm (by omega) (by omega)
        (fun i h1 h2 => hair i (by omega) h2) hhit]
      by_cases hjk1 : jm = k + 1
      · rw [if_pos hjk1, if_neg hjm]
        subst hjk1
        simp
      · rw [if_neg hjk1, if_neg hjm]

/-- The raycast march reports no hit when every remaining sample is Air. -/
theorem raycastFrom_miss (w : World) (ox oy oz dx dy dz : Q) :
    ∀ (steps k : Nat) (lastAir : Option (Int × Int × Int)),
      (∀ i, k ≤ i → i < k + steps → raySampleBlock w ox oy oz dx dy dz i = AIR) →
      raycastFrom w ox oy oz dx dy dz lastAir k steps = ⟨false, none, none⟩ := by
  intro steps
  induction steps with
  | zero => intro k lastAir _; rfl
  | succ steps ih =>
    intro k lastAir hair
    simp only [raycastFrom]
    rw [if_neg (fun hcond => hcond (hair k le_rfl (by omega)))]
    exact ih (k + 1) _ (fun i h1 h2 => hair i (by omega) (by omega))

/-- C5: the raycast samples the voxel grid at the fixed distances
0, 0.1, ..., 4.9 below the reach of 5 along the view ray.  It returns the
first non-air sampled cell as the hit together with the previously sampled
(air) cell as the placement anchor (no anchor when the very first sample
already hits), and reports no hit when every sample within reach is Air.
In particular, in a world whose only solid cell is (3,0,0), the ray from
(0.5,0.5,0.5) along (1,0,0) — the cell at distance 2.5 < 5 — hits exactly
that cell with the face-adjacent cell (2,0,0) nearer the origin as the
anchor. -/
theorem C5_raycast_first_nonair_sample :
    (∀ (w : World) (ox oy oz dx dy dz : Q) (jm : Nat),
        jm < raySteps →
        (∀ i, i < jm → raySampleBlock w ox oy oz dx dy dz i = AIR) →
        raySampleBlock w ox oy oz dx dy dz jm ≠ AIR →
        raycast w ox oy oz dx dy dz =
          ⟨true, some (raySample ox oy oz dx dy dz jm),
            if jm = 0 then none else some (raySample ox oy oz dx dy dz (jm - 1))⟩) ∧
      (∀ (w : World) (ox oy oz dx dy dz : Q),
        (∀ i, i < raySteps → raySampleBlock w ox oy oz dx dy dz i = AIR) →
        raycast w ox oy oz dx dy dz = ⟨false, none, none⟩) ∧
      raycast wRay qHalf qHalf qHalf (Q.ofInt 1) (Q.ofInt 0) (Q.ofInt 0) =
        ⟨true, some (3, 0, 0), some (2, 0, 0)⟩ := by
  refine ⟨?_, ?_, ?_⟩
  · intro w ox oy oz dx dy dz jm hjm hair hhit
    unfold raycast
    exact raycastFrom_hit w ox oy oz dx dy dz raySteps 0 none jm (by omega) (by omega)
      (fun i _ h2 => hair i h2) hhit
  · intro w ox oy oz dx dy dz hair
    unfold raycast
    exact raycastFrom_miss w ox oy oz dx dy dz raySteps 0 none
      (fun i _ h2 => hair i (by omega))
  · decide

/-- C5 witness: the in-particular scenario, reached through the general
characterization at first-hit step 25 (distance 2.5). -/
theorem C5_raycast_first_nonair_sample_witness :
    raycast wRay qHalf qHalf qHalf (Q.ofInt 1) (Q.ofInt 0) (Q.ofInt 0) =
      ⟨true, some (raySample qHalf qHalf qHalf (Q.ofInt 1) (Q.ofInt 0) (Q.ofInt 0) 25),
        some (raySample qHalf qHalf qHalf (Q.ofInt 1) (Q.ofInt 0) (Q.ofInt 0) 24)⟩ := by
  have h := C5_raycast_first_nonair_sample.1 wRay qHalf qHalf qHalf
    (Q.ofInt 1) (Q.ofInt 0) (Q.ofInt 0) 25 (by decide) (by decide) (by decide)
  rw [h]
  simp

/-! ## Claim C6 -/

theorem floor_le_ceil_of_le (a b : ℚ) (h : a ≤ b) : ⌊a⌋ ≤ ⌈b⌉ := by
  have h1 : (⌊a⌋ : ℚ) ≤ a := Int.floor_le a
  have h2 : b ≤ (⌈b⌉ : ℚ) := Int.le_ceil b
  exact_mod_cast h1.trans (h.trans h2)

theorem playerRadius_toRat : playerRadius.toRat = 2 / 5 := by
  norm_num [Q.toRat, playerRadius]

theorem playerHeight_toRat : playerHeight.toRat = 9 / 5 := by
  norm_num [Q.toRat, playerHeight]

/-- Player.checkCollision reports a collision exactly when some cell of
the inclusive floor/ceil box around position + offset is non-air. -/
theorem checkCollision_iff (w : World) (px py pz ox oy oz : Q) :
    checkCollision w px py pz ox oy oz = true ↔
      ∃ cx cy cz : Int,
        ((px + ox) - playerRadius).floor ≤ cx ∧ cx ≤ ((px + ox) + playerRadius).ceil ∧
        (py + oy).floor ≤ cy ∧ cy ≤ ((py + oy) + playerHeight).ceil ∧
        ((pz + oz) - playerRadius).floor ≤ cz ∧ cz ≤ ((pz + oz) + playerRadius).ceil ∧
        w.getBlock cx cy cz ≠ AIR := by
  unfold checkCollision
  simp only [List.any_eq_true, mem_intRangeIncl, decide_eq_true_eq]
  constructor
  · rintro ⟨cx, ⟨hcx1, hcx2⟩, cy, ⟨hcy1, hcy2⟩, cz, ⟨hcz1, hcz2⟩, hb⟩
    exact ⟨cx, cy, cz, hcx1, hcx2, hcy1, hcy2, hcz1, hcz2, hb⟩
  · rintro ⟨cx, cy, cz, hcx1, hcx2, hcy1, hcy2, hcz1, hcz2, hb⟩
    exact ⟨cx, ⟨hcx1, hcx2⟩, cy, ⟨hcy1, hcy2⟩, cz, ⟨hcz1, hcz2⟩, hb⟩

theorem Q.floor_off_sub (a b : Q) (e : Int) :
    ((a + Q.ofInt e) - b).floor = (a - b).floor + e := by
  rw [Q.floor_eq, Q.floor_eq,
    show ((a + Q.ofInt e) - b).toRat = (a - b).toRat + (e : ℚ) by
      rw [Q.toRat_sub, Q.toRat_add, Q.toRat_ofInt, Q.toRat_sub]; ring,
    Int.floor_add_int]

theorem Q.ceil_off_add (a b : Q) (e : Int) :
    ((a + Q.ofInt e) + b).ceil = (a + b).ceil + e := by
  rw [Q.ceil_eq, Q.ceil_eq,
    show ((a + Q.ofInt e) + b).toRat = (a + b).toRat + (e : ℚ) by
      rw [Q.toRat_add, Q.toRat_add, Q.toRat_ofInt, Q.toRat_add]; ring,
    Int.ceil_add_int]

theorem Q.floor_off (a : Q) (e : Int) : (a + Q.ofInt e).floor = a.floor + e := by
  rw [Q.floor_eq, Q.floor_eq,
    show (a + Q.ofInt e).toRat = a.toRat + (e : ℚ) by rw [Q.toRat_add, Q.toRat_ofInt],
    Int.floor_add_int]

theorem box_x_le (px : Q) : (px - playerRadius).floor ≤ (px + playerRadius).ceil := by
  rw [Q.floor_eq, Q.ceil_eq]
  apply floor_le_ceil_of_le
  rw [Q.toRat_sub, Q.toRat_add, playerRadius_toRat]
  linarith

theorem box_y_le (py : Q) : py.floor ≤ (py + playerHeight).ceil := by
  rw [Q.floor_eq, Q.ceil_eq]
  apply floor_le_ceil_of_le
  rw [Q.toRat_add, playerHeight_toRat]
  linarith

/-- A body box fully enclosed on all six sides by solid cells (the six
face-adjacent slabs of the box's inclusive floor/ceil cell footprint are
non-air) reports blocked for a displacement of one block along any axis. -/
theorem collision_enclosed_blocked (w : World) (px py pz : Q)
    (hxp : ∀ yy ∈ intRangeIncl py.floor ((py + playerHeight).ceil),
      ∀ zz ∈ intRangeIncl ((pz - playerRadius).floor) ((pz + playerRadius).ceil),
        w.getBlock ((px + playerRadius).ceil + 1) yy zz ≠ AIR)
    (hxn : ∀ yy ∈ intRangeIncl py.floor ((py + playerHeight).ceil),
      ∀ zz ∈ intRangeIncl ((pz - playerRadius).floor) ((pz + playerRadius).ceil),
        w.getBlock ((px - playerRadius).floor - 1) yy zz ≠ AIR)
    (hyp : ∀ xx ∈ intRangeIncl ((px - playerRadius).floor) ((px + playerRadius).ceil),
      ∀ zz ∈ intRangeIncl ((pz - playerRadius).floor) ((pz + playerRadius).ceil),
        w.getBlock xx ((py + playerHeight).ceil + 1) zz ≠ AIR)
    (hyn : ∀ xx ∈ intRangeIncl ((px - playerRadius).floor) ((px + playerRadius).ceil),
      ∀ zz ∈ intRangeIncl ((pz - playerRadius).floor) ((pz + playerRadius).ceil),
        w.getBlock xx (py.floor - 1) zz ≠ AIR)
    (hzp : ∀ xx ∈ intRangeIncl ((px - playerRadius).floor) ((px + playerRadius).ceil),
      ∀ yy ∈ intRangeIncl py.floor ((py + playerHeight).ceil),
        w.getBlock xx yy ((pz + playerRadius).ceil + 1) ≠ AIR)
    (hzn : ∀ xx ∈ intRangeIncl ((px - playerRadius).floor) ((px + playerRadius).ceil),
      ∀ yy ∈ intRangeIncl py.floor ((py + playerHeight).ceil),
        w.getBlock xx yy ((pz - playerRadius).floor - 1) ≠ AIR) :
    checkCollision w px py pz (Q.ofInt 1) (Q.ofInt 0) (Q.ofInt 0) = true ∧
      checkCollision w px py pz (Q.ofInt (-1)) (Q.ofInt 0) (Q.ofInt 0) = true ∧
      checkCollision w px py pz (Q.ofInt 0) (Q.ofInt 1) (Q.ofInt 0) = true ∧
      checkCollision w px py pz (Q.ofInt 0) (Q.ofInt (-1)) (Q.ofInt 0) = true ∧
      checkCollision w px py pz (Q.ofInt 0) (Q.ofInt 0) (Q.ofInt 1) = true ∧
      checkCollision w px py pz (Q.ofInt 0) (Q.ofInt 0) (Q.ofInt (-1)) = true := by
  have hx01 := box_x_le px
  have hy01 := box_y_le py
  have hz01 := box_x_le pz
  have memy : py.floor ∈ intRangeIncl py.floor ((py + playerHeight).ceil) :=
    (mem_intRangeIncl _ _ _).mpr ⟨le_refl _, hy01⟩
  have memx : (px - playerRadius).floor ∈
      intRangeIncl ((px - playerRadius).floor) ((px + playerRadius).ceil) :=
    (mem_intRangeIncl _ _ _).mpr ⟨le_refl _, hx01⟩
  have memz : (pz - playerRadius).floor ∈
      intRangeIncl ((pz - playerRadius).floor) ((pz + playerRadius).ceil) :=
    (mem_intRangeIncl _ _ _).mpr ⟨le_refl _, hz01⟩
  refine ⟨?_, ?_, ?_, ?_, ?_, ?_⟩
  · refine (checkCollision_iff w px py pz (Q.ofInt 1) (Q.ofInt 0) (Q.ofInt 0)).mpr
      ⟨(px + playerRadius).ceil + 1, py.floor, (pz - playerRadius).floor,
        ?_, ?_, ?_, ?_, ?_, ?_, hxp _ memy _ memz⟩
    · rw [Q.floor_off_sub]; omega
    · rw [Q.ceil_off_add]
    · rw [Q.floor_off]; omega
    · rw [Q.ceil_off_add]; omega
    · rw [Q.floor_off_sub]; omega
    · rw [Q.ceil_off_add]; omega
  · refine (checkCollision_iff w px py pz (Q.ofInt (-1)) (Q.ofInt 0) (Q.ofInt 0)).mpr
      ⟨(px - playerRadius).floor - 1, py.floor, (pz - playerRadius).floor,
        ?_, ?_, ?_, ?_, ?_, ?_, hxn _ memy _ memz⟩
    · rw [Q.floor_off_sub]; omega
    · rw [Q.ceil_off_add]; omega
    · rw [Q.floor_off]; omega
    · rw [Q.ceil_off_add]; omega
    · rw [Q.floor_off_sub]; omega
    · rw [Q.ceil_off_add]; omega
  · refine (checkCollision_iff w px py pz (Q.ofInt 0) (Q.ofInt 1) (Q.ofInt 0)).mpr
      ⟨(px - playerRadius).floor, (py + playerHeight).ceil + 1, (pz - playerRadius).floor,
        ?_, ?_, ?_, ?_, ?_, ?_, hyp _ memx _ memz⟩
    · rw [Q.floor_off_sub]; omega
    · rw [Q.ceil_off_add]; omega
    · rw [Q.floor_off]; omega
    · rw [Q.ceil_off_add]
    · rw [Q.floor_off_sub]; omega
    · rw [Q.ceil_off_add]; omega
  · refine (checkCollision_iff w px py pz (Q.ofInt 0) (Q.ofInt (-1)) (Q.ofInt 0)).mpr
      ⟨(px - playerRadius).floor, py.floor - 1, (pz - playerRadius).floor,
        ?_, ?_, ?_, ?_, ?_, ?_, hyn _ memx _ memz⟩
    · rw [Q.floor_off_sub]; omega
    · rw [Q.ceil_off_add]; omega
    · rw [Q.floor_off]; omega
    · rw [Q.ceil_off_add]; omega
    · rw [Q.floor_off_sub]; omega
    · rw [Q.ceil_off_add]; omega
  · refine (checkCollision_iff w px py pz (Q.ofInt 0) (Q.ofInt 0) (Q.ofInt 1)).mpr
      ⟨(px - playerRadius).floor, py.floor, (pz + playerRadius).ceil + 1,
        ?_, ?_, ?_, ?_, ?_, ?_, hzp _ memx _ memy⟩
    · rw [Q.floor_off_sub]; omega
    · rw [Q.ceil_off_add]; omega
    · rw [Q.floor_off]; omega
    · rw [Q.ceil_off_add]; omega
    · rw [Q.floor_off_sub]; omega
    · rw [Q.ceil_off_add]
  · refine (checkCollision_iff w px py pz (Q.ofInt 0) (Q.ofInt 0) (Q.ofInt (-1))).mpr
      ⟨(px - playerRadius).floor, py.floor, (pz - playerRadius).floor - 1,
        ?_, ?_, ?_, ?_, ?_, ?_, hzn _ memx _ memy⟩
    · rw [Q.floor_off_sub]; omega
    · rw [Q.ceil_off_add]; omega
    · rw [Q.floor_off]; omega
    · rw [Q.ceil_off_add]; omega
    · rw [Q.floor_off_sub]; omega
    · rw [Q.ceil_off_add]; omega

theorem floor_off_ge (a b o : Q) (ho : Q.ofInt (-1) < o) :
    (a - b).floor - 1 ≤ ((a + o) - b).floor := by
  have hlt := (Q.lt_iff _ _).mp ho
  rw [Q.toRat_ofInt] at hlt
  push_cast at hlt
  rw [Q.floor_eq, Q.floor_eq, ← Int.floor_sub_int]
  apply Int.floor_mono
  rw [Q.toRat_sub, Q.toRat_sub, Q.toRat_add]
  push_cast
  linarith

theorem ceil_off_le (a b o : Q) (ho : o < Q.ofInt 1) :
    ((a + o) + b).ceil ≤ (a + b).ceil + 1 := by
  have hlt := (Q.lt_iff _ _).mp ho
  rw [Q.toRat_ofInt] at hlt
  push_cast at hlt
  rw [Q.ceil_eq, Q.ceil_eq, ← Int.ceil_add_int]
  apply Int.ceil_mono
  rw [Q.toRat_add, Q.toRat_add, Q.toRat_add]
  push_cast
  linarith

theorem floor_off_ge_plain (a o : Q) (ho : Q.ofInt (-1) < o) :
    a.floor - 1 ≤ (a + o).floor := by
  have hlt := (Q.lt_iff _ _).mp ho
  rw [Q.toRat_ofInt] at hlt
  push_cast at hlt
  rw [Q.floor_eq, Q.floor_eq, ← Int.floor_sub_int]
  apply Int.floor_mono
  rw [Q.toRat_add]
  push_cast
  linarith

/-- A body box surrounded by Air (every cell of the one-block-expanded
floor/ceil footprint is Air) reports free for every displacement smaller
than one block on each axis. -/
theorem collision_surrounded_free (w : World) (px py pz ox oy oz : Q)
    (hsur : ∀ xx ∈ intRangeIncl ((px - playerRadius).floor - 1) ((px + playerRadius).ceil + 1),
      ∀ yy ∈ intRangeIncl (py.floor - 1) ((py + playerHeight).ceil + 1),
        ∀ zz ∈ intRangeIncl ((pz - playerRadius).floor - 1) ((pz + playerRadius).ceil + 1),
          w.getBlock xx yy zz = AIR)
    (hox1 : Q.ofInt (-1) < ox) (hox2 : ox < Q.ofInt 1)
    (hoy1 : Q.ofInt (-1) < oy) (hoy2 : oy < Q.ofInt 1)
    (hoz1 : Q.ofInt (-1) < oz) (hoz2 : oz < Q.ofInt 1) :
    checkCollision w px py pz ox oy oz = false := by
  by_contra hc
  rw [Bool.not_eq_false] at hc
  obtain ⟨cx, cy, cz, h1, h2, h3, h4, h5, h6, hb⟩ :=
    (checkCollision_iff w px py pz ox oy oz).mp hc
  apply hb
  refine hsur cx ((mem_intRangeIncl _ _ _).mpr ⟨?_, ?_⟩)
    cy ((mem_intRangeIncl _ _ _).mpr ⟨?_, ?_⟩)
    cz ((mem_intRangeIncl _ _ _).mpr ⟨?_, ?_⟩)
  · exact le_trans (floor_off_ge px playerRadius ox hox1) h1
  · exact le_trans h2 (ceil_off_le px playerRadius ox hox2)
  · exact le_trans (floor_off_ge_plain py oy hoy1) h3
  · exact le_trans h4 (ceil_off_le py playerHeight oy hoy2)
  · exact le_trans (floor_off_ge pz playerRadius oz hoz1) h5
  · exact le_trans h6 (ceil_off_le pz playerRadius oz hoz2)

/-- C6 (amended): checkCollision reports blocked exactly when some cell of
the inclusive floor/ceil box at position + offset is non-air; a body box
fully enclosed on all 6 sides by solid cells reports blocked for a
displacement of ONE BLOCK along any axis (the unrestricted "any non-zero
displacement" fails: a displacement smaller than the slack between the
0.8 x 1.8 x 0.8 body and its cell footprint, or large enough to jump past
the enclosing shell, reports free — see the counterexample); and a body
box surrounded by Air reports free for displacements smaller than one
block on each axis. -/
theorem C6_collision_box_enumeration :
    (∀ (w : World) (px py pz ox oy oz : Q),
        checkCollision w px py pz ox oy oz = true ↔
          ∃ cx cy cz : Int,
            ((px + ox) - playerRadius).floor ≤ cx ∧ cx ≤ ((px + ox) + playerRadius).ceil ∧
            (py + oy).floor ≤ cy ∧ cy ≤ ((py + oy) + playerHeight).ceil ∧
            ((pz + oz) - playerRadius).floor ≤ cz ∧ cz ≤ ((pz + oz) + playerRadius).ceil ∧
            w.getBlock cx cy cz ≠ AIR) ∧
      (∀ (w : World) (px py pz : Q),
        (∀ yy ∈ intRangeIncl py.floor ((py + playerHeight).ceil),
          ∀ zz ∈ intRangeIncl ((pz - playerRadius).floor) ((pz + playerRadius).ceil),
            w.getBlock ((px + playerRadius).ceil + 1) yy zz ≠ AIR) →
        (∀ yy ∈ intRangeIncl py.floor ((py + playerHeight).ceil),
          ∀ zz ∈ intRangeIncl ((pz - playerRadius).floor) ((pz + playerRadius).ceil),
            w.getBlock ((px - playerRadius).floor - 1) yy zz ≠ AIR) →
        (∀ xx ∈ intRangeIncl ((px - playerRadius).floor) ((px + playerRadius).ceil),
          ∀ zz ∈ intRangeIncl ((pz - playerRadius).floor) ((pz + playerRadius).ceil),
            w.getBlock xx ((py + playerHeight).ceil + 1) zz ≠ AIR) →
        (∀ xx ∈ intRangeIncl ((px - playerRadius).floor) ((px + playerRadius).ceil),
          ∀ zz ∈ intRangeIncl ((pz - playerRadius).floor) ((pz + playerRadius).ceil),
            w.getBlock xx (py.floor - 1) zz ≠ AIR) →
        (∀ xx ∈ intRangeIncl ((px - playerRadius).floor) ((px + playerRadius).ceil),
          ∀ yy ∈ intRangeIncl py.floor ((py + playerHeight).ceil),
            w.getBlock xx yy ((pz + playerRadius).ceil + 1) ≠ AIR) →
        (∀ xx ∈ intRangeIncl ((px - playerRadius).floor) ((px + playerRadius).ceil),
          ∀ yy ∈ intRangeIncl py.floor ((py + playerHeight).ceil),
            w.getBlock xx yy ((pz - playerRadius).floor - 1) ≠ AIR) →
        checkCollision w px py pz (Q.ofInt 1) (Q.ofInt 0) (Q.ofInt 0) = true ∧
          checkCollision w px py pz (Q.ofInt (-1)) (Q.ofInt 0) (Q.ofInt 0) = true ∧
          checkCollision w px py pz (Q.ofInt 0) (Q.ofInt 1) (Q.ofInt 0) = true ∧
          checkCollision w px py pz (Q.ofInt 0) (Q.ofInt (-1)) (Q.ofInt 0) = true ∧
          checkCollision w px py pz (Q.ofInt 0) (Q.ofInt 0) (Q.ofInt 1) = true ∧
          checkCollision w px py pz (Q.ofInt 0) (Q.ofInt 0) (Q.ofInt (-1)) = true) ∧
      (∀ (w : World) (px py pz ox oy oz : Q),
        (∀ xx ∈ intRangeIncl ((px - playerRadius).floor - 1) ((px + playerRadius).ceil + 1),
          ∀ yy ∈ intRangeIncl (py.floor - 1) ((py + playerHeight).ceil + 1),
            ∀ zz ∈ intRangeIncl ((pz - playerRadius).floor - 1) ((pz + playerRadius).ceil + 1),
              w.getBlock xx yy zz = AIR) →
        Q.ofInt (-1) < ox → ox < Q.ofInt 1 → Q.ofInt (-1) < oy → oy < Q.ofInt 1 →
        Q.ofInt (-1) < oz → oz < Q.ofInt 1 →
        checkCollision w px py pz ox oy oz = false) := by
  refine ⟨checkCollision_iff, ?_, ?_⟩
  · intro w px py pz hxp hxn hyp hyn hzp hzn
    exact collision_enclosed_blocked w px py pz hxp hxn hyp hyn hzp hzn
  · intro w px py pz ox oy oz hsur hox1 hox2 hoy1 hoy2 hoz1 hoz2
    exact collision_surrounded_free w px py pz ox oy oz hsur hox1 hox2 hoy1 hoy2 hoz1 hoz2

/-- C6 witness: in the shell world (pocket at x,z in [8,9] and y in
[30,32] walled by Stone) a body at (8.5, 30, 8.5) is blocked by a one
block displacement along +x, and in the empty world a body at the origin
is free for a half-block displacement on every axis. -/
theorem C6_collision_box_enumeration_witness :
    checkCollision wShell qMid (Q.ofInt 30) qMid (Q.ofInt 1) (Q.ofInt 0) (Q.ofInt 0) = true ∧
      checkCollision wEmpty qZero qZero qZero qHalf qHalf qHalf = false := by
  constructor
  · exact (C6_collision_box_enumeration.2.1 wShell qMid (Q.ofInt 30) qMid
      (by decide) (by decide) (by decide) (by decide) (by decide) (by decide)).1
  · exact C6_collision_box_enumeration.2.2 wEmpty qZero qZero qZero qHalf qHalf qHalf
      (by decide) (by decide) (by decide) (by decide) (by decide) (by decide) (by decide)

/-- C6 counterexample: the claim's "blocked for any non-zero displacement
on any axis" fails on the code.  In the shell world the body box at
(8.5, 30, 8.5) is fully enclosed on all 6 sides by solid cells (box cells
x,z in [8,9], y in [30,32]; the six face slabs are Stone), yet a non-zero
displacement of 0.05 along x (inside the pocket's slack) and one of 3
along x (jumping past the shell) both report free. -/
theorem C6_small_and_large_displacements_free_counterexample :
    (∀ yy ∈ intRangeIncl 30 32, ∀ zz ∈ intRangeIncl 8 9,
        wShell.getBlock 10 yy zz ≠ AIR ∧ wShell.getBlock 7 yy zz ≠ AIR) ∧
      (∀ xx ∈ intRangeIncl 8 9, ∀ zz ∈ intRangeIncl 8 9,
        wShell.getBlock xx 33 zz ≠ AIR ∧ wShell.getBlock xx 29 zz ≠ AIR) ∧
      (∀ xx ∈ intRangeIncl 8 9, ∀ yy ∈ intRangeIncl 30 32,
        wShell.getBlock xx yy 10 ≠ AIR ∧ wShell.getBlock xx yy 7 ≠ AIR) ∧
      (qMid - playerRadius).floor = 8 ∧ (qMid + playerRadius).ceil = 9 ∧
      (Q.ofInt 30).floor = 30 ∧ ((Q.ofInt 30) + playerHeight).ceil = 32 ∧
      checkCollision wShell qMid (Q.ofInt 30) qMid qTiny (Q.ofInt 0) (Q.ofInt 0) = false ∧
      checkCollision wShell qMid (Q.ofInt 30) qMid (Q.ofInt 3) (Q.ofInt 0) (Q.ofInt 0) = false := by
  decide

/-! ## Claim C3 -/

theorem length_flatMap_three {α β : Type} (l : List α) (g : α → List β)
    (hg : ∀ a, (g a).length = 3) : (l.flatMap g).length = 3 * l.length := by
  induction l with
  | nil => rfl
  | cons a rest ih =>
    rw [List.flatMap_cons, List.length_append, hg a, ih, List.length_cons]
    ring

theorem emitFace_vertexCount (props : BlockProps) (X y Z : Int) (f : FaceSpec) (m : MeshData) :
    (emitFace props X y Z f m).vertexCount = m.vertexCount + 4 := rfl

theorem emitFace_vertices (props : BlockProps) (X y Z : Int) (f : FaceSpec) (m : MeshData) :
    (emitFace props X y Z f m).vertices =
      m.vertices ++ (f.verts.flatMap fun v => [X + v.1, y + v.2.1, Z + v.2.2]) := rfl

theorem emitFace_colors (props : BlockProps) (X y Z : Int) (f : FaceSpec) (m : MeshData) :
    (emitFace props X y Z f m).colors =
      m.colors ++ (f.verts.flatMap fun _ =>
        [colorR (faceHex props f.sel), colorG (faceHex props f.sel),
          colorB (faceHex props f.sel)]) := rfl

theorem emitFace_indices (props : BlockProps) (X y Z : Int) (f : FaceSpec) (m : MeshData) :
    (emitFace props X y Z f m).indices =
      m.indices ++
        [m.vertexCount, m.vertexCount + 1, m.vertexCount + 2,
         m.vertexCount, m.vertexCount + 2, m.vertexCount + 3] := rfl

theorem foldFaces_counts (props : BlockProps) (X y Z : Int) (P : FaceSpec → Bool) :
    ∀ (fs : List FaceSpec), (∀ f ∈ fs, f.verts.length = 4) → ∀ (m : MeshData),
      (fs.foldl (fun acc f => if P f then emitFace props X y Z f acc else acc) m).vertexCount =
          m.vertexCount + 4 * (fs.filter P).length ∧
        (fs.foldl (fun acc f => if P f then emitFace props X y Z f acc else acc) m).vertices.length =
          m.vertices.length + 12 * (fs.filter P).length ∧
        (fs.foldl (fun acc f => if P f then emitFace props X y Z f acc else acc) m).colors.length =
          m.colors.length + 12 * (fs.filter P).length ∧
        (fs.foldl (fun acc f => if P f then emitFace props X y Z f acc else acc) m).indices.length =
          m.indices.length + 6 * (fs.filter P).length := by
  intro fs
  induction fs with
  | nil => intro _ m; simp
  | cons f rest ih =>
    intro hall m
    have hf : f.verts.length = 4 := hall f (List.mem_cons_self _ _)
    have hrest : ∀ g ∈ rest, g.verts.length = 4 := fun g hg => hall g (List.mem_cons_of_mem _ hg)
    rw [List.foldl_cons, List.filter_cons]
    by_cases hp : P f
    · obtain ⟨g1, g2, g3, g4⟩ := ih hrest (emitFace props X y Z f m)
      rw [if_pos hp, if_pos hp]
      refine ⟨?_, ?_, ?_, ?_⟩
      · rw [g1, emitFace_vertexCount, List.length_cons]
        ring
      · rw [g2, emitFace_vertices, List.length_append, List.length_cons,
          length_flatMap_three f.verts
            (fun v => [X + v.1, y + v.2.1, Z + v.2.2]) (fun v => rfl), hf]
        ring
      · rw [g3, emitFace_colors, List.length_append, List.length_cons,
          length_flatMap_three f.verts
            (fun _ => [colorR (faceHex props f.sel), colorG (faceHex props f.sel),
              colorB (faceHex props f.sel)]) (fun v => rfl), hf]
        ring
      · rw [g4, emitFace_indices, List.length_append, List.length_cons]
        simp only [List.length_cons, List.length_nil]
        ring
    · obtain ⟨g1, g2, g3, g4⟩ := ih hrest m
      rw [if_neg hp, if_neg hp]
      exact ⟨g1, g2, g3, g4⟩

theorem emitBlock_eq (w : World) (c : Chunk) (m : MeshData) (x y z : Int) :
    emitBlock w c m (x, y, z) =
      if c.getBlock x y z = AIR then m
      else
        meshFaces.foldl
          (fun acc f =>
            if Chunk.shouldRenderFace w c x y z f.dir.1 f.dir.2.1 f.dir.2.2 then
              emitFace (BlockProperties (c.getBlock x y z)) (c.chunkX * CHUNK_SIZE + x) y
                (c.chunkZ * CHUNK_SIZE + z) f acc
            else acc)
          m := rfl

theorem meshFaces_verts_four : ∀ f ∈ meshFaces, f.verts.length = 4 := by decide

theorem emitBlock_counts (w : World) (c : Chunk) (m : MeshData) (x y z : Int) :
    (emitBlock w c m (x, y, z)).vertexCount = m.vertexCount + 4 * faceCountAt w c x y z ∧
      (emitBlock w c m (x, y, z)).vertices.length =
        m.vertices.length + 12 * faceCountAt w c x y z ∧
      (emitBlock w c m (x, y, z)).colors.length =
        m.colors.length + 12 * faceCountAt w c x y z ∧
      (emitBlock w c m (x, y, z)).indices.length =
        m.indices.length + 6 * faceCountAt w c x y z := by
  rw [emitBlock_eq]
  unfold faceCountAt
  by_cases hb : c.getBlock x y z = AIR
  · rw [if_pos hb, if_pos hb]
    refine ⟨?_, ?_, ?_, ?_⟩ <;> omega
  · rw [if_neg hb, if_neg hb]
    exact foldFaces_counts (BlockProperties (c.getBlock x y z)) (c.chunkX * CHUNK_SIZE + x) y
      (c.chunkZ * CHUNK_SIZE + z)
      (fun f => Chunk.shouldRenderFace w c x y z f.dir.1 f.dir.2.1 f.dir.2.2)
      meshFaces meshFaces_verts_four m

theorem foldCells_counts (w : World) (c : Chunk) :
    ∀ (cells : List (Int × Int × Int)) (m : MeshData),
      (cells.foldl (emitBlock w c) m).vertexCount =
          m.vertexCount + 4 * (cells.map fun cell => faceCountAt w c cell.1 cell.2.1 cell.2.2).sum ∧
        (cells.foldl (emitBlock w c) m).vertices.length =
          m.vertices.length +
            12 * (cells.map fun cell => faceCountAt w c cell.1 cell.2.1 cell.2.2).sum ∧
        (cells.foldl (emitBlock w c) m).colors.length =
          m.colors.length +
            12 * (cells.map fun cell => faceCountAt w c cell.1 cell.2.1 cell.2.2).sum ∧
        (cells.foldl (emitBlock w c) m).indices.length =
          m.indices.length +
            6 * (cells.map fun cell => faceCountAt w c cell.1 cell.2.1 cell.2.2).sum := by
  intro cells
  induction cells with
  | nil => intro m; simp
  | cons p rest ih =>
    intro m
    obtain ⟨x, y, z⟩ := p
    obtain ⟨h1, h2, h3, h4⟩ := emitBlock_counts w c m x y z
    obtain ⟨g1, g2, g3, g4⟩ := ih (emitBlock w c m (x, y, z))
    simp only [List.foldl_cons, List.map_cons, List.sum_cons]
    refine ⟨?_, ?_, ?_, ?_⟩
    · rw [g1, h1]; ring
    · rw [g2, h2]; ring
    · rw [g3, h3]; ring
    · rw [g4, h4]; ring

theorem foldl_flatMap {α β γ : Type} (l : List α) (g : α → List β) (f : γ → β → γ)
    (init : γ) :
    (l.flatMap g).foldl f init = l.foldl (fun acc a => (g a).foldl f acc) init := by
  induction l generalizing init with
  | nil => rfl
  | cons a rest ih => rw [List.flatMap_cons, List.foldl_append, List.foldl_cons, ih]

theorem generateMeshData_flat (w : World) (c : Chunk) :
    generateMeshData w c = meshCells.foldl (emitBlock w c) ⟨[], [], [], 0⟩ := by
  unfold generateMeshData meshCells
  simp only [foldl_flatMap, List.foldl_map]

theorem meshData_counts (w : World) (c : Chunk) :
    (generateMeshData w c).vertexCount = 4 * exposedFaces w c ∧
      (generateMeshData w c).vertices.length = 12 * exposedFaces w c ∧
      (generateMeshData w c).colors.length = 12 * exposedFaces w c ∧
      (generateMeshData w c).indices.length = 6 * exposedFaces w c := by
  rw [generateMeshData_flat]
  unfold exposedFaces
  obtain ⟨h1, h2, h3, h4⟩ := foldCells_counts w c meshCells ⟨[], [], [], 0⟩
  refine ⟨?_, ?_, ?_, ?_⟩
  · rw [h1, show (⟨[], [], [], 0⟩ : MeshData).vertexCount = 0 from rfl]
    omega
  · rw [h2, show (⟨[], [], [], 0⟩ : MeshData).vertices.length = 0 from rfl]
    omega
  · rw [h3, show (⟨[], [], [], 0⟩ : MeshData).colors.length = 0 from rfl]
    omega
  · rw [h4, show (⟨[], [], [], 0⟩ : MeshData).indices.length = 0 from rfl]
    omega

theorem shouldRenderFace_iff (w : World) (c : Chunk) (x y z dx dy dz : Int) :
    Chunk.shouldRenderFace w c x y z dx dy dz = true ↔
      (if x + dx < 0 ∨ x + dx ≥ CHUNK_SIZE ∨ z + dz < 0 ∨ z + dz ≥ CHUNK_SIZE then
        w.getBlock (c.chunkX * CHUNK_SIZE + (x + dx)) (y + dy) (c.chunkZ * CHUNK_SIZE + (z + dz))
          = AIR
      else c.getBlock (x + dx) (y + dy) (z + dz) = AIR) := by
  unfold Chunk.shouldRenderFace
  by_cases hcond : x + dx < 0 ∨ x + dx ≥ CHUNK_SIZE ∨ z + dz < 0 ∨ z + dz ≥ CHUNK_SIZE
  · rw [if_pos hcond, if_pos hcond, decide_eq_true_eq]
  · rw [if_neg hcond, if_neg hcond, decide_eq_true_eq]

theorem sum_map_zero {α : Type} (l : List α) (f : α → Nat) (h0 : ∀ b ∈ l, f b = 0) :
    (l.map f).sum = 0 := by
  refine List.sum_eq_zero ?_
  intro v hv
  obtain ⟨b, hb, rfl⟩ := List.mem_map.mp hv
  exact h0 b hb

theorem sum_map_range_single (n : Nat) (f : Nat → Nat) (j : Nat) (hj : j < n)
    (h0 : ∀ i, i < n → i ≠ j → f i = 0) : ((List.range n).map f).sum = f j := by
  induction n with
  | zero => omega
  | succ n ih =>
    rw [List.range_succ, List.map_append, List.sum_append]
    by_cases hjn : j = n
    · subst hjn
      rw [sum_map_zero _ _ (fun b hb => h0 b (by rw [List.mem_range] at hb; omega)
        (by rw [List.mem_range] at hb; omega))]
      simp
    · rw [ih (by omega) (fun i hi hij => h0 i (by omega) hij)]
      have hn : f n = 0 := h0 n (by omega) (fun he => hjn he.symm)
      simp [hn]

theorem map_flatMap_sum {α β : Type} (l : List α) (g : α → List β) (f : β → Nat) :
    ((l.flatMap g).map f).sum = (l.map fun a => ((g a).map f).sum).sum := by
  induction l with
  | nil => rfl
  | cons a rest ih =>
    rw [List.flatMap_cons, List.map_append, List.sum_append, ih, List.map_cons, List.sum_cons]

theorem map_map_sum {α β : Type} (l : List α) (g : α → β) (f : β → Nat) :
    ((l.map g).map f).sum = (l.map fun a => f (g a)).sum := by
  rw [List.map_map]
  rfl

theorem sum3_single (f : Int → Int → Int → Nat) (jx jy jz : Nat)
    (hjx : jx < 16) (hjy : jy < 64) (hjz : jz < 16)
    (h0 : ∀ x y z : Nat, ¬(x = jx ∧ y = jy ∧ z = jz) →
      f ((x : Nat) : Int) ((y : Nat) : Int) ((z : Nat) : Int) = 0) :
    ((List.range 64).map fun y =>
        ((List.range 16).map fun z =>
            ((List.range 16).map fun x =>
                f ((x : Nat) : Int) ((y : Nat) : Int) ((z : Nat) : Int)).sum).sum).sum =
      f ((jx : Nat) : Int) ((jy : Nat) : Int) ((jz : Nat) : Int) := by
  have hy : ∀ i : Nat, i < 64 → i ≠ jy →
      ((List.range 16).map fun z =>
          ((List.range 16).map fun x =>
              f ((x : Nat) : Int) ((i : Nat) : Int) ((z : Nat) : Int)).sum).sum = 0 := by
    intro i hi hij
    refine sum_map_zero _ _ ?_
    intro zz hzz
    refine sum_map_zero _ _ ?_
    intro xx hxx
    exact h0 xx i zz (fun hc => hij hc.2.1)
  rw [sum_map_range_single 64 _ jy hjy hy]
  show ((List.range 16).map fun z =>
      ((List.range 16).map fun x =>
          f ((x : Nat) : Int) ((jy : Nat) : Int) ((z : Nat) : Int)).sum).sum = _
  have hz : ∀ i : Nat, i < 16 → i ≠ jz →
      ((List.range 16).map fun x =>
          f ((x : Nat) : Int) ((jy : Nat) : Int) ((i : Nat) : Int)).sum = 0 := by
    intro i hi hij
    refine sum_map_zero _ _ ?_
    intro xx hxx
    exact h0 xx jy i (fun hc => hij hc.2.2)
  rw [sum_map_range_single 16 _ jz hjz hz]
  show ((List.range 16).map fun x =>
      f ((x : Nat) : Int) ((jy : Nat) : Int) ((jz : Nat) : Int)).sum = _
  have hx : ∀ i : Nat, i < 16 → i ≠ jx →
      f ((i : Nat) : Int) ((jy : Nat) : Int) ((jz : Nat) : Int) = 0 := by
    intro i hi hij
    exact h0 i jy jz (fun hc => hij hc.1)
  rw [sum_map_range_single 16 _ jx hjx hx]

theorem faceCountAt_wIso_zero (x y z : Int) (hne : ¬(x = 8 ∧ y = 30 ∧ z = 8)) :
    faceCountAt wIso cIso x y z = 0 := by
  have hair : cIso.getBlock x y z = AIR := by
    unfold cIso
    rw [getBlock_setBlock_other _ _ _ _ _ _ _ _ hne, init_getBlock]
  unfold faceCountAt
  rw [if_pos hair]

theorem faceCountAt_wIso_six : faceCountAt wIso cIso 8 30 8 = 6 := by decide

theorem exposedFaces_wIso : exposedFaces wIso cIso = 6 := by
  unfold exposedFaces meshCells
  simp only [map_flatMap_sum, map_map_sum]
  rw [sum3_single (fun x y z => faceCountAt wIso cIso x y z) 8 30 8 (by omega) (by omega)
    (by omega) ?h0]
  case h0 =>
    intro x y z hne
    refine faceCountAt_wIso_zero _ _ _ ?_
    rintro ⟨h1, h2, h3⟩
    exact hne ⟨by omega, by omega, by omega⟩
  exact faceCountAt_wIso_six

/-- C3: a face of a non-air block is emitted exactly when the neighbor
cell in its direction is Air, resolved through the chunk when the
neighbor's local x,z stay inside the chunk and through the world at world
coordinates otherwise; each emitted face contributes one quad (4
vertices, 12 position and 12 color scalars, 6 indices = 2 triangles) to
the buffers; in a chunk whose only solid block has all 6 neighbors Air
the mesh holds exactly 6 quads (24 vertices, 36 indices = 12 triangles),
and a solid block with all 6 neighbors solid emits 0 faces. -/
theorem C3_mesh_face_culling_counts :
    (∀ (w : World) (c : Chunk) (x y z dx dy dz : Int),
        Chunk.shouldRenderFace w c x y z dx dy dz = true ↔
          (if x + dx < 0 ∨ x + dx ≥ CHUNK_SIZE ∨ z + dz < 0 ∨ z + dz ≥ CHUNK_SIZE then
            w.getBlock (c.chunkX * CHUNK_SIZE + (x + dx)) (y + dy)
              (c.chunkZ * CHUNK_SIZE + (z + dz)) = AIR
          else c.getBlock (x + dx) (y + dy) (z + dz) = AIR)) ∧
      (∀ (w : World) (c : Chunk),
          (generateMeshData w c).vertexCount = 4 * exposedFaces w c ∧
            (generateMeshData w c).vertices.length = 12 * exposedFaces w c ∧
            (generateMeshData w c).colors.length = 12 * exposedFaces w c ∧
            (generateMeshData w c).indices.length = 6 * exposedFaces w c) ∧
      exposedFaces wIso cIso = 6 ∧
      (generateMeshData wIso cIso).vertexCount = 24 ∧
      (generateMeshData wIso cIso).indices.length = 36 ∧
      faceCountAt wEnc cEnc 8 30 8 = 0 := by
  refine ⟨shouldRenderFace_iff, meshData_counts, exposedFaces_wIso, ?_, ?_, by decide⟩
  · rw [(meshData_counts wIso cIso).1, exposedFaces_wIso]
  · rw [(meshData_counts wIso cIso).2.2.2, exposedFaces_wIso]

/-! ## Claim C2 -/

theorem terrainBlockFor_mod (h y : Int) : terrainBlockFor h y % 256 = terrainBlockFor h y := by
  unfold terrainBlockFor GRASS DIRT STONE
  split_ifs <;> rfl

theorem fillColumn_getBlock_fold (c : Chunk) (x z h y : Int) (n : Nat)
    (hx : 0 ≤ x) (hx2 : x < 16) (hz : 0 ≤ z) (hz2 : z < 16)
    (hy : 0 ≤ y) (hy2 : y < 64) :
    ((List.range n).foldl
        (fun c' y' => c'.setBlock x ((y' : Nat) : Int) z (terrainBlockFor h ((y' : Nat) : Int)))
        c).getBlock x y z =
      if y < (n : Int) then terrainBlockFor h y else c.getBlock x y z := by
  induction n generalizing c with
  | zero =>
    rw [if_neg (by omega)]
    rfl
  | succ n ih =>
    rw [List.range_succ, List.foldl_append, List.foldl_cons, List.foldl_nil]
    by_cases hyy : y = (n : Int)
    · subst hyy
      rw [getBlock_setBlock_self _ _ _ _ _ hx hx2 hy hy2 hz hz2, terrainBlockFor_mod,
        if_pos (by push_cast; omega)]
    · rw [getBlock_setBlock_other _ _ _ _ _ _ _ _ (fun hc => hyy hc.2.1), ih c]
      by_cases hlt : y < (n : Int)
      · rw [if_pos hlt, if_pos (by push_cast at hlt ⊢; omega)]
      · rw [if_neg hlt, if_neg (by push_cast at hlt ⊢; omega)]

theorem fillColumn_getBlock (c : Chunk) (x z h y : Int)
    (hx : 0 ≤ x) (hx2 : x < CHUNK_SIZE) (hz : 0 ≤ z) (hz2 : z < CHUNK_SIZE)
    (hy : 0 ≤ y) (hy2 : y < CHUNK_HEIGHT) :
    (fillColumn c x z h).getBlock x y z =
      if y < h then terrainBlockFor h y else c.getBlock x y z := by
  unfold CHUNK_SIZE at hx2 hz2
  unfold CHUNK_HEIGHT at hy2
  unfold fillColumn
  rw [fillColumn_getBlock_fold c x z h y _ hx hx2 hz hz2 hy hy2, Int.toNat_eq_max]
  have h64 : CHUNK_HEIGHT = (64 : Int) := rfl
  rw [h64]
  by_cases hlt : y < h
  · rw [if_pos (by omega), if_pos hlt]
  · rw [if_neg (by omega), if_neg hlt]

theorem fillColumn_getBlock_other (c : Chunk) (x' z' h x y z : Int)
    (hne : ¬(x = x' ∧ z = z')) :
    (fillColumn c x' z' h).getBlock x y z = c.getBlock x y z := by
  unfold fillColumn
  generalize (min h CHUNK_HEIGHT).toNat = n
  induction n generalizing c with
  | zero => rfl
  | succ n ih =>
    rw [List.range_succ, List.foldl_append, List.foldl_cons, List.foldl_nil]
    rw [getBlock_setBlock_other _ _ _ _ _ _ _ _ (fun hc => hne ⟨hc.1, hc.2.2⟩)]
    exact ih c

theorem fillRun_cons (w : World) (cx cz x z : Int) (rest : List (Int × Int)) :
    fillRun w cx cz ((x, z) :: rest) =
      fillRun (w.modifyChunk cx cz
          (fun c => fillColumn c x z (columnHeight w.seed (cx * CHUNK_SIZE + x) (cz * CHUNK_SIZE + z))))
        cx cz rest := rfl

theorem fillChunk_cons (seed cx cz : Int) (c : Chunk) (x z : Int) (rest : List (Int × Int)) :
    fillChunk seed cx cz c ((x, z) :: rest) =
      fillChunk seed cx cz
        (fillColumn c x z (columnHeight seed (cx * CHUNK_SIZE + x) (cz * CHUNK_SIZE + z))) rest := rfl

theorem fillChunk_append (seed cx cz : Int) (c : Chunk) (l1 l2 : List (Int × Int)) :
    fillChunk seed cx cz c (l1 ++ l2) = fillChunk seed cx cz (fillChunk seed cx cz c l1) l2 := by
  unfold fillChunk
  rw [List.foldl_append]

theorem fillChunk_getBlock_notmem (seed cx cz : Int) (c : Chunk) (cols : List (Int × Int))
    (x y z : Int) (hnm : (x, z) ∉ cols) :
    (fillChunk seed cx cz c cols).getBlock x y z = c.getBlock x y z := by
  induction cols generalizing c with
  | nil => rfl
  | cons p rest ih =>
    obtain ⟨x', z'⟩ := p
    rw [fillChunk_cons]
    rw [ih _ (fun hm => hnm (List.mem_cons_of_mem _ hm))]
    refine fillColumn_getBlock_other _ _ _ _ _ _ _ (fun hc => hnm ?_)
    rw [hc.1, hc.2]
    exact List.mem_cons_self _ _

theorem fillRun_get (w : World) (cx cz : Int) (cols : List (Int × Int)) (c : Chunk)
    (hres : mapGet w.chunks (cx, cz) = some c) :
    mapGet (fillRun w cx cz cols).chunks (cx, cz) = some (fillChunk w.seed cx cz c cols) := by
  induction cols generalizing w c with
  | nil => exact hres
  | cons p rest ih =>
    obtain ⟨x, z⟩ := p
    rw [fillRun_cons, fillChunk_cons]
    have hres' := modifyChunk_get_self w cx cz
      (fun ca => fillColumn ca x z (columnHeight w.seed (cx * CHUNK_SIZE + x) (cz * CHUNK_SIZE + z)))
      c hres
    have hrec := ih _ _ hres'
    rw [modifyChunk_seed] at hrec
    exact hrec

set_option maxRecDepth 10000 in
theorem chunkColumns_length : chunkColumns.length = 256 := by decide

set_option maxRecDepth 10000 in
theorem chunkColumns_nodup : chunkColumns.Nodup := by decide

theorem mem_chunkColumns (x z : Int) :
    (x, z) ∈ chunkColumns ↔ 0 ≤ x ∧ x < 16 ∧ 0 ≤ z ∧ z < 16 := by
  unfold chunkColumns
  simp only [List.mem_flatMap, List.mem_map, List.mem_range, Prod.mk.injEq]
  constructor
  · rintro ⟨a, ha, b, hb, h1, h2⟩
    omega
  · rintro ⟨h1, h2, h3, h4⟩
    exact ⟨x.toNat, by omega, z.toNat, by omega, by omega, by omega⟩

theorem rngNoTree_no (k : Nat) : ¬(rngNoTree k < treeChance) := by
  show ¬(qHalf < treeChance)
  decide

theorem runGen_genColumns_noTree (cols : List (Int × Int)) :
    ∀ (fuel : Nat) (w : World) (k : Nat) (cx cz : Int), cols.length < fuel →
      ∃ k', runGen fuel w rngNoTree k (GenOp.genColumns cx cz cols) =
        some (fillRun w cx cz cols, k', true) := by
  induction cols with
  | nil =>
    intro fuel w k cx cz hfuel
    cases fuel with
    | zero => omega
    | succ f => exact ⟨k, rfl⟩
  | cons p rest ih =>
    intro fuel w k cx cz hfuel
    obtain ⟨x, z⟩ := p
    cases fuel with
    | zero => omega
    | succ f =>
      have hrest : rest.length < f := by
        rw [List.length_cons] at hfuel
        omega
      simp only [runGen]
      rw [fillRun_cons]
      by_cases hh :
          columnHeight w.seed (cx * CHUNK_SIZE + x) (cz * CHUNK_SIZE + z) < CHUNK_HEIGHT - 6
      · rw [if_pos hh, if_neg (rngNoTree_no k)]
        obtain ⟨k', hk'⟩ := ih f
          (w.modifyChunk cx cz
            (fun c => fillColumn c x z (columnHeight w.seed (cx * CHUNK_SIZE + x) (cz * CHUNK_SIZE + z))))
          (k + 1) cx cz hrest
        exact ⟨k', hk'⟩
      · rw [if_neg hh]
        obtain ⟨k', hk'⟩ := ih f
          (w.modifyChunk cx cz
            (fun c => fillColumn c x z (columnHeight w.seed (cx * CHUNK_SIZE + x) (cz * CHUNK_SIZE + z))))
          k cx cz hrest
        exact ⟨k', hk'⟩

theorem runGen_generateChunkTerrain_noTree (fuel : Nat) (w : World) (k : Nat) (cx cz : Int)
    (hfuel : 258 ≤ fuel) :
    ∃ k', runGen fuel w rngNoTree k (GenOp.generateChunkTerrain cx cz) =
      some (fillRun w cx cz chunkColumns, k', true) := by
  cases fuel with
  | zero => omega
  | succ f =>
    simp only [runGen]
    exact runGen_genColumns_noTree chunkColumns f w k cx cz
      (by rw [chunkColumns_length]; omega)

/-- C2: on a tree-free random history, generating a fresh resident chunk
runs the column fill loop over all 256 columns; every in-range column
(x,z) then reads back, at each local y in [0, HEIGHT): Grass at the
topmost filled cell y = height-1, Dirt at the up-to-4 cells below it
(height-4 <= y < height-1), Stone at every remaining filled cell down to
0, and Air at every y >= height, where height is the computed noise
height of that column.  In particular a column of height 20 is Stone on
[0,15], Dirt on [16,18], Grass at 19 and Air from 20 up. -/
theorem C2_column_fill_layout (w : World) (cx cz x z : Int) (fuel : Nat)
    (hres : mapGet w.chunks (cx, cz) = some (Chunk.init cx cz))
    (hx : 0 ≤ x) (hx2 : x < CHUNK_SIZE) (hz : 0 ≤ z) (hz2 : z < CHUNK_SIZE)
    (hfuel : 258 ≤ fuel) :
    ∃ (k' : Nat) (c' : Chunk),
      runGen fuel w rngNoTree 0 (GenOp.generateChunkTerrain cx cz) =
          some (fillRun w cx cz chunkColumns, k', true) ∧
        mapGet (fillRun w cx cz chunkColumns).chunks (cx, cz) = some c' ∧
        ∀ y : Int, 0 ≤ y → y < CHUNK_HEIGHT →
          c'.getBlock x y z =
            if y < columnHeight w.seed (cx * CHUNK_SIZE + x) (cz * CHUNK_SIZE + z) then
              (if y = columnHeight w.seed (cx * CHUNK_SIZE + x) (cz * CHUNK_SIZE + z) - 1 then
                GRASS
               else if y ≥ columnHeight w.seed (cx * CHUNK_SIZE + x) (cz * CHUNK_SIZE + z) - 4 then
                DIRT
               else STONE)
            else AIR := by
  obtain ⟨k', hrun⟩ := runGen_generateChunkTerrain_noTree fuel w 0 cx cz hfuel
  refine ⟨k', fillChunk w.seed cx cz (Chunk.init cx cz) chunkColumns, hrun,
    fillRun_get w cx cz chunkColumns _ hres, ?_⟩
  intro y hy hy2
  have hmem : (x, z) ∈ chunkColumns :=
    (mem_chunkColumns x z).mpr ⟨hx, by unfold CHUNK_SIZE at hx2; exact hx2, hz,
      by unfold CHUNK_SIZE at hz2; exact hz2⟩
  obtain ⟨pre, post, hsplit⟩ := List.append_of_mem hmem
  have hnd : chunkColumns.Nodup := chunkColumns_nodup
  rw [hsplit, List.nodup_append] at hnd
  have hnpost : (x, z) ∉ post := (List.nodup_cons.mp hnd.2.1).1
  have hnpre : (x, z) ∉ pre := fun hm => hnd.2.2 hm (List.mem_cons_self _ _)
  rw [hsplit, fillChunk_append, fillChunk_cons,
    fillChunk_getBlock_notmem _ _ _ _ _ _ _ _ hnpost,
    fillColumn_getBlock _ _ _ _ _ hx hx2 hz hz2 hy hy2,
    fillChunk_getBlock_notmem _ _ _ _ _ _ _ _ hnpre, init_getBlock]
  unfold terrainBlockFor
  rfl

/-- C2 witness: seed 0 at column (0,0) of chunk (0,0) computes height 20
and the generated fresh chunk reads back exactly the claimed layout. -/
theorem C2_column_fill_layout_witness :
    columnHeight wFresh.seed (0 * CHUNK_SIZE + 0) (0 * CHUNK_SIZE + 0) = 20 ∧
      ∃ (k' : Nat) (c' : Chunk),
        runGen 300 wFresh rngNoTree 0 (GenOp.generateChunkTerrain 0 0) =
            some (fillRun wFresh 0 0 chunkColumns, k', true) ∧
          mapGet (fillRun wFresh 0 0 chunkColumns).chunks (0, 0) = some c' ∧
          ∀ y : Int, 0 ≤ y → y < CHUNK_HEIGHT →
            c'.getBlock 0 y 0 =
              if y < columnHeight wFresh.seed (0 * CHUNK_SIZE + 0) (0 * CHUNK_SIZE + 0) then
                (if y = columnHeight wFresh.seed (0 * CHUNK_SIZE + 0) (0 * CHUNK_SIZE + 0) - 1 then
                  GRASS
                 else if y ≥ columnHeight wFresh.seed (0 * CHUNK_SIZE + 0) (0 * CHUNK_SIZE + 0) - 4 then
                  DIRT
                 else STONE)
              else AIR :=
  ⟨by decide, C2_column_fill_layout wFresh 0 0 0 0 300 rfl (by decide) (by decide) (by decide)
    (by decide) (by decide)⟩

/-! ## Claim C9 -/

theorem mapGet_eq_some_mem (m : ChunkMap) (key : Int × Int) (c : Chunk)
    (h : mapGet m key = some c) : (key, c) ∈ m := by
  induction m with
  | nil => cases h
  | cons e rest ih =>
    rcases e with ⟨ek, ec⟩
    unfold mapGet at h
    by_cases hk : ek = key
    · rw [if_pos hk] at h
      cases h
      subst hk
      exact List.mem_cons_self _ _
    · rw [if_neg hk] at h
      exact List.mem_cons_of_mem _ (ih h)

/-- The chunk World.deserialize reconstructs from one persisted entry. -/
theorem restore_fields (cd : ChunkData) :
    ((Chunk.init cd.chunkX cd.chunkZ).deserializeC cd).chunkX = cd.chunkX ∧
      ((Chunk.init cd.chunkX cd.chunkZ).deserializeC cd).chunkZ = cd.chunkZ ∧
      ((Chunk.init cd.chunkX cd.chunkZ).deserializeC cd).dirty = true := by
  exact ⟨rfl, rfl, rfl⟩

/-- Rebuilding skips keys that are not in the serialized tail. -/
theorem rebuild_get_notmem (l : ChunkMap) (acc : ChunkMap) (key : Int × Int)
    (hwf : ∀ e ∈ l, e.1 = (e.2.chunkX, e.2.chunkZ))
    (hout : key ∉ l.map (fun e => e.1)) :
    mapGet ((l.map fun e => e.2.serializeC).foldl
        (fun m cd => mapSet m (cd.chunkX, cd.chunkZ) ((Chunk.init cd.chunkX cd.chunkZ).deserializeC cd))
        acc) key = mapGet acc key := by
  induction l generalizing acc with
  | nil => rfl
  | cons e rest ih =>
    rcases e with ⟨ek, ec⟩
    simp only [List.map_cons, List.foldl_cons]
    have hek : ek = (ec.chunkX, ec.chunkZ) := hwf (ek, ec) (List.mem_cons_self _ _)
    have hkey_ne : key ≠ (ec.serializeC.chunkX, ec.serializeC.chunkZ) := by
      intro hh
      apply hout
      simp only [List.map_cons, List.mem_cons]
      left
      rw [hek, hh]
      exact rfl
    rw [ih _ (fun e he => hwf e (List.mem_cons_of_mem _ he))
      (fun hh => hout (by simp only [List.map_cons, List.mem_cons]; right; exact hh))]
    exact mapGet_mapSet_other _ _ _ _ hkey_ne

/-- Rebuilding the chunk map from the serialized entries restores, at each
originally present key, the deserialization of that chunk's serialization. -/
theorem rebuild_get (l : ChunkMap) (acc : ChunkMap) (key : Int × Int) (c : Chunk)
    (hnodup : (l.map fun e => e.1).Nodup)
    (hwf : ∀ e ∈ l, e.1 = (e.2.chunkX, e.2.chunkZ))
    (hmem : (key, c) ∈ l) :
    mapGet ((l.map fun e => e.2.serializeC).foldl
        (fun m cd => mapSet m (cd.chunkX, cd.chunkZ) ((Chunk.init cd.chunkX cd.chunkZ).deserializeC cd))
        acc) key =
      some ((Chunk.init c.serializeC.chunkX c.serializeC.chunkZ).deserializeC c.serializeC) := by
  induction l generalizing acc with
  | nil => cases hmem
  | cons e rest ih =>
    rcases e with ⟨ek, ec⟩
    simp only [List.map_cons, List.foldl_cons]
    simp only [List.map_cons, List.nodup_cons] at hnodup
    rcases List.mem_cons.mp hmem with hhead | htail
    · injection hhead with h1 h2
      subst h1
      subst h2
      have hkey : (c.serializeC.chunkX, c.serializeC.chunkZ) = key :=
        (hwf (key, c) (List.mem_cons_self _ _)).symm
      rw [rebuild_get_notmem rest _ key (fun e he => hwf e (List.mem_cons_of_mem _ he))
        hnodup.1]
      rw [← hkey]
      exact mapGet_mapSet_self _ _ _
    · have hkne : key ≠ (ec.serializeC.chunkX, ec.serializeC.chunkZ) := by
        intro hh
        apply hnodup.1
        have hk_in : key ∈ rest.map (fun e => e.1) :=
          List.mem_map.mpr ⟨(key, c), htail, rfl⟩
        have hek : ek = (ec.chunkX, ec.chunkZ) := hwf (ek, ec) (List.mem_cons_self _ _)
        rw [hek]
        exact hh ▸ hk_in
      exact ih _ hnodup.2 (fun e he => hwf e (List.mem_cons_of_mem _ he)) htail

theorem getD_map_range (n i : Nat) (f : Nat → Nat) (hi : i < n) :
    ((List.range n).map f).getD i 0 = f i := by
  rw [List.getD_eq_getElem?_getD, List.getElem?_map, List.getElem?_range hi]
  rfl

/-- A restored block array is byte-identical to the original. -/
theorem blocksList_restore (c : Chunk) :
    ((Chunk.init c.serializeC.chunkX c.serializeC.chunkZ).deserializeC c.serializeC).blocksList =
      c.blocksList := by
  unfold Chunk.blocksList
  apply List.map_congr_left
  intro i hi
  rw [List.mem_range] at hi
  rw [show ((Chunk.init c.serializeC.chunkX c.serializeC.chunkZ).deserializeC c.serializeC).blocks =
      fun j => if 0 ≤ j then c.serializeC.blocks.getD j.toNat 0 else 0 from rfl]
  show (if 0 ≤ ((i : Nat) : Int) then c.serializeC.blocks.getD ((i : Nat) : Int).toNat 0 else 0) =
    c.blocks ((i : Nat) : Int)
  unfold Chunk.serializeC
  unfold Chunk.blocksList
  rw [if_pos (Int.natCast_nonneg i),
    show ((i : Nat) : Int).toNat = i by omega,
    getD_map_range _ _ _ hi]

/-- C9: serialization round-trips.  For every world state whose chunk map
is well formed (unique keys, each chunk registered at its own coordinate
pair — true of every map the code builds), deserializing the
serialization restores the same seed and, at every chunk coordinate
present before, a chunk with the same coordinates, a byte-identical block
array, and a set dirty flag. -/
theorem C9_serialize_roundtrip (w : World) (key : Int × Int) (c : Chunk)
    (hnodup : (w.chunks.map fun e => e.1).Nodup)
    (hwf : ∀ e ∈ w.chunks, e.1 = (e.2.chunkX, e.2.chunkZ))
    (hget : mapGet w.chunks key = some c) :
    (w.deserializeW w.serializeW).seed = w.seed ∧
      ∃ c', mapGet (w.deserializeW w.serializeW).chunks key = some c' ∧
        c'.chunkX = c.chunkX ∧ c'.chunkZ = c.chunkZ ∧
        c'.blocksList = c.blocksList ∧ c'.dirty = true := by
  constructor
  · rfl
  · refine ⟨(Chunk.init c.serializeC.chunkX c.serializeC.chunkZ).deserializeC c.serializeC,
      ?_, rfl, rfl, blocksList_restore c, rfl⟩
    unfold World.deserializeW World.serializeW
    exact rebuild_get w.chunks [] key c hnodup hwf (mapGet_eq_some_mem _ _ _ hget)

/-- C9 witness: the singleton world holding the fresh chunk (0,0) under
seed 0 round-trips: same seed, same coordinate, byte-identical blocks,
dirty set. -/
theorem C9_serialize_roundtrip_witness :
    (wFresh.deserializeW wFresh.serializeW).seed = wFresh.seed ∧
      ∃ c', mapGet (wFresh.deserializeW wFresh.serializeW).chunks (0, 0) = some c' ∧
        c'.chunkX = (Chunk.init 0 0).chunkX ∧ c'.chunkZ = (Chunk.init 0 0).chunkZ ∧
        c'.blocksList = (Chunk.init 0 0).blocksList ∧ c'.dirty = true :=
  C9_serialize_roundtrip wFresh (0, 0) (Chunk.init 0 0)
    (by decide) (by decide) rfl

/-! ## Claim C7 -/

/-- C7: block accesses degrade to safe defaults and never fail.  For every
local coordinate outside [0,SIZE) x [0,HEIGHT) x [0,SIZE), chunk-level
getBlock returns Air regardless of chunk contents and chunk-level setBlock
leaves the chunk (block array and dirty flag) unchanged; and world-level
getBlock returns Air whenever y is outside [0,HEIGHT) or the owning chunk
(at floor-divided chunk coordinates) is not resident. -/
theorem C7_out_of_range_safe_defaults :
    (∀ (c : Chunk) (x y z : Int),
        (x < 0 ∨ x ≥ CHUNK_SIZE ∨ y < 0 ∨ y ≥ CHUNK_HEIGHT ∨ z < 0 ∨ z ≥ CHUNK_SIZE) →
        c.getBlock x y z = AIR) ∧
      (∀ (c : Chunk) (x y z : Int) (t : Nat),
        (x < 0 ∨ x ≥ CHUNK_SIZE ∨ y < 0 ∨ y ≥ CHUNK_HEIGHT ∨ z < 0 ∨ z ≥ CHUNK_SIZE) →
        c.setBlock x y z t = c) ∧
      (∀ (w : World) (x y z : Int),
        (y < 0 ∨ y ≥ CHUNK_HEIGHT ∨
            mapGet w.chunks (Int.fdiv x CHUNK_SIZE, Int.fdiv z CHUNK_SIZE) = none) →
        w.getBlock x y z = AIR) := by
  refine ⟨?_, ?_, ?_⟩
  · intro c x y z h
    unfold Chunk.getBlock
    simp [h]
  · intro c x y z t h
    unfold Chunk.setBlock
    simp [h]
  · intro w x y z h
    unfold World.getBlock
    by_cases hy : y < 0 ∨ y ≥ CHUNK_HEIGHT
    · simp [hy]
    · have hn : mapGet w.chunks (Int.fdiv x CHUNK_SIZE, Int.fdiv z CHUNK_SIZE) = none := by
        tauto
      simp only [hy, if_false]
      unfold World.getChunk
      rw [hn]

/-- C7 witness: a concrete out-of-range read on a chunk whose array holds
Stone everywhere, a concrete out-of-range write, and a concrete read into
the empty world. -/
theorem C7_out_of_range_safe_defaults_witness :
    (⟨0, 0, fun _ => STONE, none, false⟩ : Chunk).getBlock (-1) 5 5 = AIR ∧
      (Chunk.init 0 0).setBlock 3 64 3 STONE = Chunk.init 0 0 ∧
      wEmpty.getBlock 0 5 0 = AIR := by
  refine ⟨?_, ?_, ?_⟩
  · exact C7_out_of_range_safe_defaults.1 _ (-1) 5 5 (by unfold CHUNK_SIZE; omega)
  · exact C7_out_of_range_safe_defaults.2.1 _ 3 64 3 STONE (by unfold CHUNK_HEIGHT; omega)
  · exact C7_out_of_range_safe_defaults.2.2 wEmpty 0 5 0 (Or.inr (Or.inr rfl))

/-! ## Claim C8 -/

/-- C8: the dirty flag tracks mesh staleness.  Every in-bounds chunk-level
setBlock sets the owning chunk's dirty flag; Chunk.generateMesh is a no-op
when the chunk is not dirty; and after rebuilding a dirty chunk the dirty
flag is false, including when the rebuild yields no geometry (the all-air
chunk hits the empty-buffer early return, which also clears the flag). -/
theorem C8_dirty_tracks_mesh_staleness :
    (∀ (c : Chunk) (x y z : Int) (t : Nat),
        0 ≤ x → x < CHUNK_SIZE → 0 ≤ y → y < CHUNK_HEIGHT → 0 ≤ z → z < CHUNK_SIZE →
        (c.setBlock x y z t).dirty = true) ∧
      (∀ (w : World) (c : Chunk), c.dirty = false → Chunk.generateMesh w c = c) ∧
      (∀ (w : World) (c : Chunk), c.dirty = true → (Chunk.generateMesh w c).dirty = false) := by
  refine ⟨?_, ?_, ?_⟩
  · intro c x y z t hx hx2 hy hy2 hz hz2
    unfold Chunk.setBlock
    have hcond : ¬(x < 0 ∨ x ≥ CHUNK_SIZE ∨ y < 0 ∨ y ≥ CHUNK_HEIGHT ∨ z < 0 ∨ z ≥ CHUNK_SIZE) := by
      unfold CHUNK_SIZE CHUNK_HEIGHT at *
      omega
    simp [hcond]
  · intro w c h
    unfold Chunk.generateMesh
    simp [h]
  · intro w c h
    unfold Chunk.generateMesh
    rw [h]
    by_cases hv : (generateMeshData w c).vertices = []
    · simp [hv]
    · simp [hv]

/-- C10: a world-level setBlock with vertical coordinate y outside
[0,HEIGHT) returns false and leaves the world state (chunk map, block
arrays, dirty flags) entirely unchanged, for any fuel allowing the call
to run at all; and for y inside [0,HEIGHT), every completed call returns
true and leaves the owning chunk (at floor-divided chunk coordinates)
resident, creating it if it was absent. -/
theorem C10_setBlock_vertical_range :
    (∀ (fuel : Nat) (w : World) (rng : Rng) (k : Nat) (x y z : Int) (t : Nat),
        (y < 0 ∨ y ≥ CHUNK_HEIGHT) →
        World.setBlockF (fuel + 1) w rng k x y z t = some (w, k, false)) ∧
      (∀ (fuel : Nat) (w : World) (rng : Rng) (k : Nat) (x y z : Int) (t : Nat)
          (r : World × Nat × Bool),
        0 ≤ y → y < CHUNK_HEIGHT →
        World.setBlockF fuel w rng k x y z t = some r →
        r.2.2 = true ∧
          (mapGet r.1.chunks (Int.fdiv x CHUNK_SIZE, Int.fdiv z CHUNK_SIZE)).isSome = true) := by
  constructor
  · intro fuel w rng k x y z t hy
    unfold World.setBlockF
    simp only [runGen]
    rw [if_pos hy]
  · intro fuel w rng k x y z t r hy1 hy2 h
    unfold World.setBlockF at h
    cases fuel with
    | zero => simp [runGen] at h
    | succ fuel =>
      simp only [runGen] at h
      rw [if_neg (by omega)] at h
      cases heq : runGen fuel w rng k
          (GenOp.getOrCreateChunk (x.fdiv CHUNK_SIZE) (z.fdiv CHUNK_SIZE)) with
      | none => rw [heq] at h; cases h
      | some r1 =>
        rw [heq] at h
        rcases r1 with ⟨w1, k1, b1⟩
        cases h
        refine ⟨rfl, ?_⟩
        have p1 := runGen_getOrCreate_present fuel w rng k _ _ _ heq
        exact markDirty_ite_isSome _ _ _ _ _ (markDirty_ite_isSome _ _ _ _ _
          (markDirty_ite_isSome _ _ _ _ _ (markDirty_ite_isSome _ _ _ _ _
            (modifyChunk_isSome _ _ _ _ _ p1))))

/-- C10 witness: a concrete out-of-range write into the empty world is a
rejected no-op, and a concrete in-range write (into a world where chunk
(0,0) is resident) returns true with the owning chunk resident. -/
theorem C10_setBlock_vertical_range_witness :
    World.setBlockF 1 wEmpty rngNoTree 0 0 (-5) 0 STONE = some (wEmpty, 0, false) ∧
      (World.setBlockF 2 wFresh rngNoTree 0 1 2 3 STONE).map
          (fun r => (r.2.2, (mapGet r.1.chunks (0, 0)).isSome)) =
        some (true, true) := by
  constructor
  · exact C10_setBlock_vertical_range.1 0 wEmpty rngNoTree 0 0 (-5) 0 STONE
      (by unfold CHUNK_HEIGHT; omega)
  · cases heval : World.setBlockF 2 wFresh rngNoTree 0 1 2 3 STONE with
    | none =>
      have : (World.setBlockF 2 wFresh rngNoTree 0 1 2 3 STONE).isSome = true := by decide
      rw [heval] at this
      cases this
    | some r =>
      have hr := C10_setBlock_vertical_range.2 2 wFresh rngNoTree 0 1 2 3 STONE r
        (by omega) (by unfold CHUNK_HEIGHT; omega) heval
      have hfx : Int.fdiv 1 CHUNK_SIZE = 0 := by decide
      have hfz : Int.fdiv 3 CHUNK_SIZE = 0 := by decide
      rw [hfx, hfz] at hr
      simp only [Option.map_some']
      rw [hr.1, hr.2]

/-- C8 witness: a concrete in-bounds write sets the dirty flag, rebuilding
a clean chunk is the identity, and rebuilding a dirty chunk (here all-air,
the zero-face case) clears the flag. -/
theorem C8_dirty_tracks_mesh_staleness_witness :
    ((Chunk.init 0 0).setBlock 1 2 3 STONE).dirty = true ∧
      Chunk.generateMesh wEmpty (cleanChunk 0 0) = cleanChunk 0 0 ∧
      (Chunk.generateMesh wEmpty (Chunk.init 0 0)).dirty = false := by
  refine ⟨?_, ?_, ?_⟩
  · exact C8_dirty_tracks_mesh_staleness.1 _ 1 2 3 STONE (by decide) (by decide) (by decide)
      (by decide) (by decide) (by decide)
  · exact C8_dirty_tracks_mesh_staleness.2.1 wEmpty (cleanChunk 0 0) (by decide)
  · exact C8_dirty_tracks_mesh_staleness.2.2 wEmpty (Chunk.init 0 0) (by decide)

end VoxelCore
